import Mathlib

/-!
Verification development for the `lhx_text2sql` grounded text-to-SQL pipeline.

We give a shallow embedding of the core components (SQL compiler, semantic
validator, planner guard steps, in-memory vector index) and prove the
specification's quantified properties about them.  Machine strings are Lean
`String`s, Python lists are Lean `List`s, Python `set`s are modelled as
`List`/`Finset` (only membership / subset / cardinality are consulted, which
the model preserves), and fallible code returns `Except String _`.
-/

namespace Lhx

/-! ## String utilities (models of the Python primitives used by the code) -/

/-- Model of Python `s.split(".", 1)` restricted to the case the code uses:
`none` when `s` has no `'.'` (the code's two-target unpacking then raises),
otherwise the parts before and after the first `'.'`. -/
def splitDotChars : List Char → Option (List Char × List Char)
  | [] => none
  | c :: cs =>
    if c = '.' then some ([], cs)
    else match splitDotChars cs with
      | none => none
      | some (l, r) => some (c :: l, r)

def splitDot (s : String) : Option (String × String) :=
  match splitDotChars s.data with
  | none => none
  | some (l, r) => some (String.mk l, String.mk r)

/-- Model of Python `"." in s`. -/
def hasDot (s : String) : Bool := s.data.contains '.'

/-- Model of Python `s.endswith(t)`. -/
def strEndsWith (s t : String) : Bool := t.data.isSuffixOf s.data

/-- Infix test on character lists (used to model Python `in` on strings). -/
def charsInfix (needle : List Char) : List Char → Bool
  | [] => needle.isEmpty
  | c :: rest => needle.isPrefixOf (c :: rest) || charsInfix needle rest

/-- Model of Python `t in s` (substring containment). -/
def strContains (s t : String) : Bool := charsInfix t.data s.data

/-- Model of Python `s.lower()` (ASCII case folding, written over the
character list so that it evaluates inside the kernel). -/
def pyLower (s : String) : String := String.mk (s.data.map Char.toLower)

theorem splitDotChars_reconstruct (cs : List Char) (l r : List Char)
    (h : splitDotChars cs = some (l, r)) : l ++ '.' :: r = cs := by
  induction cs generalizing l r with
  | nil => simp [splitDotChars] at h
  | cons c cs ih =>
    unfold splitDotChars at h
    by_cases hc : c = '.'
    · rw [if_pos hc] at h
      simp at h
      simp [← h.1, ← h.2, hc]
    · rw [if_neg hc] at h
      cases hrec : splitDotChars cs with
      | none => rw [hrec] at h; exact absurd h (by simp)
      | some p =>
        obtain ⟨l', r'⟩ := p
        rw [hrec] at h
        simp at h
        rw [← h.1, ← h.2]
        simp [ih _ _ hrec]

/-- Splitting at the first dot and re-joining with `"."` gives back the
original string: justifies that re-qualified column names equal the
allow-list entries they came from. -/
theorem splitDot_reconstruct (s t f : String) (h : splitDot s = some (t, f)) :
    t ++ "." ++ f = s := by
  unfold splitDot at h
  cases hs : splitDotChars s.data with
  | none => rw [hs] at h; exact absurd h (by simp)
  | some p =>
    obtain ⟨l, r⟩ := p
    rw [hs] at h
    simp at h
    obtain ⟨ht, hf⟩ := h
    subst ht hf
    have hrec := splitDotChars_reconstruct s.data l r hs
    apply String.ext
    simpa [String.append] using hrec

/-! ## Data model (translated from `app/core/models.py`) -/

structure SchemaEntity where
  table : String
  field : String
  field_desc : String
  aliases : List String
  unit : String
  data_type : String
  quality_tags : List String
deriving DecidableEq, Repr

structure JoinEdge where
  left_table : String
  left_field : String
  right_table : String
  right_field : String
  join_type : String
deriving DecidableEq, Repr

structure JoinPath where
  join_path_id : String
  description : String
  tables : List String
  edges : List JoinEdge
deriving DecidableEq, Repr

structure MetricDef where
  metric_id : String
  name : String
  definition : String
  formula : String
  required_fields : List String
  default_time_grain : String
  unit : String
deriving DecidableEq, Repr

structure TemplateRule where
  template_id : String
  intent : String
  allowed_aggs : List String
  allowed_funcs : List String
  required_clauses : List String
deriving DecidableEq, Repr

structure EvidenceBundle where
  metric_candidates : List MetricDef
  schema_candidates : List SchemaEntity
  join_paths : List JoinPath
  template_rules : List TemplateRule
deriving DecidableEq, Repr

deriving instance DecidableEq for Except

/-- JSON scalar values as they occur in plan filter values / metric params. -/
inductive JScalar where
  | str (v : String)
  | int (n : Int)
  | numRaw (lit : String)
  | bool (v : Bool)
  | null
deriving DecidableEq, Repr

/-- A JSON value for a filter's `value` slot (nested arrays are not consulted
by any claim and are not modelled). -/
inductive JVal where
  | scalar (v : JScalar)
  | arr (vs : List JScalar)
deriving DecidableEq, Repr

structure Dimension where
  table : String
  field : String
deriving DecidableEq, Repr

structure Filter where
  table : String
  field : String
  op : String
  value : JVal
deriving DecidableEq, Repr

structure SortSpec where
  sort_by : String   -- source field name `by` (a Lean keyword)
  order : String
deriving DecidableEq, Repr

structure TimeRange where
  start : String
  stop : String      -- source field name `end` (a Lean keyword)
deriving DecidableEq, Repr

/-- The typed plan (`PlanDSL`) as consumed by the compiler.  Fields the
compiler never reads (`version`, `metric_params`, `output`, `confidence`,
`clarifications`, `errors_unresolved`) are omitted from this projection. -/
structure PlanDSL where
  intent : String
  metric_id : String
  dimensions : List Dimension
  time_range : TimeRange
  time_grain : String
  filters : List Filter
  join_path_id : String
  sort : Option SortSpec
  limit : Option Int
deriving DecidableEq, Repr

structure ValidationError where
  code : String
  message : String
  field_path : String
  suggestions : List String
deriving DecidableEq, Repr

/-! ## SQL expression AST

The source builds `sqlglot` expression nodes (and, for time buckets, parses a
written MySQL fragment with `parse_one`); we embed the resulting expression
trees directly. -/

inductive SqlLit where
  | num (n : Int)
  | numRaw (lit : String)
  | str (s : String)
deriving DecidableEq, Repr

inductive SqlExpr where
  | col (tbl : Option String) (name : String)
  | lit (v : SqlLit)
  | func1 (name : String) (a : SqlExpr)
  | func2 (name : String) (a b : SqlExpr)
  | binop (op : String) (a b : SqlExpr)
  | between (a lo hi : SqlExpr)
  | inList (a : SqlExpr) (vals : List SqlLit)
deriving DecidableEq, Repr

/-- All table-qualified column references occurring in an expression. -/
def SqlExpr.collectCols : SqlExpr → List (String × String)
  | .col (some t) n => [(t, n)]
  | .col none _ => []
  | .lit _ => []
  | .func1 _ a => a.collectCols
  | .func2 _ a b => a.collectCols ++ b.collectCols
  | .binop _ a b => a.collectCols ++ b.collectCols
  | .between a lo hi => a.collectCols ++ lo.collectCols ++ hi.collectCols
  | .inList a _ => a.collectCols

def SqlLit.render : SqlLit → String
  | .num n => toString n
  | .numRaw l => l
  | .str s => "'" ++ s ++ "'"

/-- Render an expression as MySQL text (function-call / operator syntax,
string literals single-quoted), used to compare emitted bucket expressions
against the specification's table. -/
def SqlExpr.render : SqlExpr → String
  | .col none n => n
  | .col (some t) n => t ++ "." ++ n
  | .lit v => v.render
  | .func1 f a => f ++ "(" ++ a.render ++ ")"
  | .func2 f a b => f ++ "(" ++ a.render ++ "," ++ b.render ++ ")"
  | .binop op a b => a.render ++ op ++ b.render
  | .between a lo hi => a.render ++ " BETWEEN " ++ lo.render ++ " AND " ++ hi.render
  | .inList a vs =>
      a.render ++ " IN (" ++ String.intercalate ", " (vs.map SqlLit.render) ++ ")"

/-- The time-field name set used by the compiler, validator and planner. -/
def TIME_FIELD_NAMES : List String := ["ts", "timestamp", "event_time", "date", "dt"]

/-- The time-typed data types used by the compiler, validator and planner. -/
def TIME_DATA_TYPES : List String := ["datetime", "timestamp", "date"]

/-! ## SQL compiler (translated from `app/core/compile/compiler.py`) -/

/-- `JOIN_TYPE_MAP` lookup. -/
def JOIN_TYPE_MAP (s : String) : Option String :=
  if s = "inner" then some "INNER"
  else if s = "left" then some "LEFT"
  else if s = "right" then some "RIGHT"
  else none

namespace SqlCompiler

/-- `SqlCompiler._build_allowed_fields`.  The source builds a Python `set`;
only membership and existential queries are consulted downstream, so a list
preserves the semantics. -/
def build_allowed_fields (plan : PlanDSL) (evidence : EvidenceBundle) : List String :=
  let schemaKeys := evidence.schema_candidates.map (fun s => s.table ++ "." ++ s.field)
  let metricKeys :=
    match evidence.metric_candidates.find? (fun m => m.metric_id == plan.metric_id) with
    | some md => md.required_fields.filter (fun f => hasDot f)
    | none => []
  let joinKeys :=
    match evidence.join_paths.find? (fun j => j.join_path_id == plan.join_path_id) with
    | some jp => (jp.edges.map (fun e =>
        [e.left_table ++ "." ++ e.left_field, e.right_table ++ "." ++ e.right_field])).flatten
    | none => []
  schemaKeys ++ metricKeys ++ joinKeys

/-- `SqlCompiler._get_metric_def`: first metric candidate with the given id. -/
def get_metric_def (metric_id : String) (evidence : EvidenceBundle) : Except String MetricDef :=
  match evidence.metric_candidates.find? (fun m => m.metric_id == metric_id) with
  | some m => .ok m
  | none => .error "metric_id not found in evidence"

/-- The first loop of `_pick_time_field`: scan schema candidates in order,
returning the first one whose (lowercased) field name is a time-field name
or whose (lowercased) data type is time-typed. -/
def pick_time_field_scan : List SchemaEntity → Option (String × String)
  | [] => none
  | item :: rest =>
    if TIME_FIELD_NAMES.contains (pyLower item.field) then some (item.table, item.field)
    else if TIME_DATA_TYPES.contains (pyLower item.data_type) then some (item.table, item.field)
    else pick_time_field_scan rest

/-- The fallback loop of `_pick_time_field` over the metric's required
fields. -/
def pick_time_field_fallback : List String → Except String (String × String)
  | [] => .error "No time field found for time_range"
  | f :: rest =>
    if strEndsWith f ".ts" || strEndsWith f ".date" then
      match splitDot f with
      | some (t, fld) => .ok (t, fld)
      -- unreachable: a field ending in ".ts" or ".date" contains a dot
      | none => .error "No time field found for time_range"
    else pick_time_field_fallback rest

/-- `SqlCompiler._pick_time_field`. -/
def pick_time_field (evidence : EvidenceBundle) (metric_def : MetricDef) :
    Except String (String × String) :=
  match pick_time_field_scan evidence.schema_candidates with
  | some tf => .ok tf
  | none => pick_time_field_fallback metric_def.required_fields

/-- `SqlCompiler._pick_base_table`. -/
def pick_base_table (plan : PlanDSL) (evidence : EvidenceBundle)
    (metric_def : MetricDef) (time_table : String) : String :=
  let fromJoin :=
    match evidence.join_paths.find? (fun j => j.join_path_id == plan.join_path_id) with
    | some jp => jp.edges.head?.map (fun e => e.left_table)
    | none => none
  match fromJoin with
  | some t => t
  | none =>
    match plan.dimensions with
    | d :: _ => d.table
    | [] =>
      match metric_def.required_fields with
      | f :: _ =>
        -- `splitDot` is `some` exactly when `"." in f`
        (match splitDot f with
         | some (t, _) => t
         | none => time_table)
      | [] => time_table

/-- `SqlCompiler._time_bucket_expr`: the source writes a MySQL fragment and
parses it with `parse_one`; we embed the parsed expression. -/
def time_bucket_expr (table field grain : String) : Except String SqlExpr :=
  let col_ref := SqlExpr.col (some table) field
  if grain = "15m" then
    .ok (.func1 "FROM_UNIXTIME"
          (.binop "*"
            (.func1 "FLOOR" (.binop "/" (.func1 "UNIX_TIMESTAMP" col_ref) (.lit (.num 900))))
            (.lit (.num 900))))
  else if grain = "hour" then
    .ok (.func2 "DATE_FORMAT" col_ref (.lit (.str "%Y-%m-%d %H:00:00")))
  else if grain = "day" then
    .ok (.func2 "DATE_FORMAT" col_ref (.lit (.str "%Y-%m-%d")))
  else if grain = "week" then
    .ok (.func2 "YEARWEEK" col_ref (.lit (.num 1)))
  else if grain = "month" then
    .ok (.func2 "DATE_FORMAT" col_ref (.lit (.str "%Y-%m")))
  else .error "Unsupported time_grain"

/-- `SqlCompiler._metric_expr`.  A required field without a dot makes the
source's two-target unpacking of `split(".", 1)` raise `ValueError`. -/
def metric_expr (metric_def : MetricDef) : Except String SqlExpr :=
  match metric_def.required_fields with
  | [] => .error "metric required_fields empty"
  | [f] =>
    match splitDot f with
    | some (t, fld) => .ok (.func1 "SUM" (.col (some t) fld))
    | none => .error "not enough values to unpack"
  | fa :: fb :: _ =>
    match splitDot fa, splitDot fb with
    | some (ta, xa), some (tb, xb) =>
      .ok (.binop "/"
            (.func1 "SUM" (.col (some ta) xa))
            (.func2 "NULLIF" (.func1 "SUM" (.col (some tb) xb)) (.lit (.num 0))))
    | _, _ => .error "not enough values to unpack"

/-- `SqlCompiler._time_range_filter`. -/
def time_range_filter (table field : String) (plan : PlanDSL) : SqlExpr :=
  .between (.col (some table) field)
    (.lit (.str plan.time_range.start)) (.lit (.str plan.time_range.stop))

/-- `SqlCompiler._literal` on a JSON scalar.  Python `bool` is an `int`
subclass and `None`/containers fall to `str(value)`; the exact literal text
is not consulted by any claim. -/
def literal_scalar : JScalar → SqlLit
  | .int n => .num n
  | .numRaw l => .numRaw l
  | .bool b => .numRaw (if b then "True" else "False")
  | .str s => .str s
  | .null => .str "None"

def literal : JVal → SqlLit
  | .scalar v => literal_scalar v
  | .arr vs => .str ("[" ++ String.intercalate ", " (vs.map (fun v => toString (repr v))) ++ "]")

/-- `SqlCompiler._filter_expr`. -/
def filter_expr (fil : Filter) : Except String SqlExpr :=
  let col_expr := SqlExpr.col (some fil.table) fil.field
  if fil.op = "=" then .ok (.binop "=" col_expr (.lit (literal fil.value)))
  else if fil.op = "!=" then .ok (.binop "<>" col_expr (.lit (literal fil.value)))
  else if fil.op = ">" then .ok (.binop ">" col_expr (.lit (literal fil.value)))
  else if fil.op = ">=" then .ok (.binop ">=" col_expr (.lit (literal fil.value)))
  else if fil.op = "<" then .ok (.binop "<" col_expr (.lit (literal fil.value)))
  else if fil.op = "<=" then .ok (.binop "<=" col_expr (.lit (literal fil.value)))
  else if fil.op = "like" then .ok (.binop "LIKE" col_expr (.lit (literal fil.value)))
  else if fil.op = "in" then
    match fil.value with
    | .arr vs => .ok (.inList col_expr (vs.map literal_scalar))
    | .scalar _ => .error "IN operator requires list value"
  else if fil.op = "between" then
    match fil.value with
    | .arr [a, b] => .ok (.between col_expr (.lit (literal_scalar a)) (.lit (literal_scalar b)))
    | _ => .error "BETWEEN operator requires two values"
  else .error "Unsupported filter op"

/-- `SqlCompiler._and`. -/
def and_join (left : Option SqlExpr) (right : SqlExpr) : SqlExpr :=
  match left with
  | none => right
  | some l => .binop "AND" l right

/-- `SqlCompiler._order_expr` (the `sort` field of the plan is known to be
present when this is called). -/
def order_expr (plan : PlanDSL) (allowed_fields : List String) (srt : SortSpec) :
    Except String (Option (SqlExpr × Bool)) :=
  let by_ := srt.sort_by
  let descFlag := srt.order == "desc"
  if by_ == "metric" || by_ == plan.metric_id then
    .ok (some (.col none plan.metric_id, descFlag))
  else if by_ == "time" || by_ == "time_bucket" then
    if plan.intent ≠ "trend" then .ok none
    else .ok (some (.col none "time_bucket", descFlag))
  else if hasDot by_ then
    if allowed_fields.contains by_ then
      match splitDot by_ with
      | some (t, f) => .ok (some (.col (some t) f, descFlag))
      -- unreachable: `hasDot by_` means `splitDot by_` is `some`
      | none => .error ("Sort field not allowed: " ++ by_)
    else .error ("Sort field not allowed: " ++ by_)
  else if allowed_fields.any (fun fld => strEndsWith fld ("." ++ by_)) then
    .ok (some (.col none by_, descFlag))
  else .error ("Sort field not allowed: " ++ by_)

/-- `SqlCompiler._get_join_path`. -/
def get_join_path (join_path_id : String) (evidence : EvidenceBundle) : Option JoinPath :=
  if join_path_id = "NONE" then none
  else evidence.join_paths.find? (fun jp => jp.join_path_id == join_path_id)

/-- The compiled query: select list (expression, alias), base table, joins
(join type, right table, ON expression), where, group-by, order-by
(expression, descending flag) and limit. -/
structure CompiledQuery where
  select_exprs : List (SqlExpr × Option String)
  from_table : String
  joins : List (String × String × SqlExpr)
  where_expr : Option SqlExpr
  group_exprs : List SqlExpr
  order_by : Option (SqlExpr × Bool)
  limit : Int
deriving DecidableEq, Repr

/-- The dimension loop of `compile`: reject the first dimension outside the
allow-list, otherwise produce the dimension column expressions in order. -/
def check_dimensions : List Dimension → List String → Except String (List SqlExpr)
  | [], _ => .ok []
  | dim :: rest, allowed =>
    let key := dim.table ++ "." ++ dim.field
    if allowed.contains key then
      match check_dimensions rest allowed with
      | .ok cols => .ok (SqlExpr.col (some dim.table) dim.field :: cols)
      | .error e => .error e
    else .error ("Dimension field not allowed: " ++ key)

/-- The filter loop of `compile`: reject the first filter field outside the
allow-list, otherwise AND each filter expression onto the accumulator. -/
def apply_filters : List Filter → List String → Option SqlExpr → Except String (Option SqlExpr)
  | [], _, acc => .ok acc
  | fil :: rest, allowed, acc =>
    let key := fil.table ++ "." ++ fil.field
    if allowed.contains key then
      match filter_expr fil with
      | .ok fe => apply_filters rest allowed (some (and_join acc fe))
      | .error e => .error e
    else .error ("Filter field not allowed: " ++ key)

/-- `SqlCompiler.compile` (the final `query.sql(dialect="mysql")` rendering
step is represented by the structured query itself). -/
def compile (plan : PlanDSL) (evidence : EvidenceBundle) : Except String CompiledQuery :=
  let allowed_fields := build_allowed_fields plan evidence
  match get_metric_def plan.metric_id evidence with
  | .error e => .error e
  | .ok metric_def =>
  match pick_time_field evidence metric_def with
  | .error e => .error e
  | .ok (time_table, time_field) =>
  let base_table := pick_base_table plan evidence metric_def time_table
  match (if plan.intent = "trend" then
           match time_bucket_expr time_table time_field plan.time_grain with
           | .ok e => .ok (some e)
           | .error e => .error e
         else .ok none : Except String (Option SqlExpr)) with
  | .error e => .error e
  | .ok bucketOpt =>
  match check_dimensions plan.dimensions allowed_fields with
  | .error e => .error e
  | .ok dim_cols =>
  match metric_expr metric_def with
  | .error e => .error e
  | .ok mexpr =>
  let select0 := match bucketOpt with
    | some b => [(b, some "time_bucket")]
    | none => []
  let group0 : List SqlExpr := match bucketOpt with
    | some _ => [SqlExpr.col none "time_bucket"]
    | none => []
  let select_exprs :=
    select0 ++ dim_cols.map (fun c => (c, (none : Option String))) ++ [(mexpr, some plan.metric_id)]
  let group_exprs := group0 ++ dim_cols
  let joins :=
    match get_join_path plan.join_path_id evidence with
    | some jp => jp.edges.map (fun edge =>
        ((JOIN_TYPE_MAP (pyLower edge.join_type)).getD "INNER", edge.right_table,
         SqlExpr.binop "="
           (.col (some edge.left_table) edge.left_field)
           (.col (some edge.right_table) edge.right_field)))
    | none => []
  match apply_filters plan.filters allowed_fields
          (some (time_range_filter time_table time_field plan)) with
  | .error e => .error e
  | .ok where_expr =>
  match (match plan.sort with
         | some srt => order_expr plan allowed_fields srt
         | none => .ok (if plan.intent = "trend"
                        then some (SqlExpr.col none "time_bucket", false)
                        else none)) with
  | .error e => .error e
  | .ok order_by =>
  -- Python `plan.limit or 200`: both a missing limit and a (falsy) 0 give 200
  let lim : Int := match plan.limit with
    | some n => if n = 0 then 200 else n
    | none => 200
  .ok { select_exprs := select_exprs, from_table := base_table, joins := joins,
        where_expr := where_expr, group_exprs := group_exprs, order_by := order_by,
        limit := lim }

/-- The qualified columns of an optional expression. -/
def opt_cols : Option SqlExpr → List (String × String)
  | some w => w.collectCols
  | none => []

/-- All table-qualified column references placed anywhere in a compiled
query: select list, join ON conditions, where clause, group-by and
order-by. -/
def emitted_columns (q : CompiledQuery) : List (String × String) :=
  (q.select_exprs.map (fun p => p.1.collectCols)).flatten ++
  (q.joins.map (fun j => j.2.2.collectCols)).flatten ++
  (match q.where_expr with
   | some w => w.collectCols
   | none => []) ++
  (q.group_exprs.map SqlExpr.collectCols).flatten ++
  (match q.order_by with
   | some (e, _) => e.collectCols
   | none => [])

end SqlCompiler

/-! ## Free-form plan maps (the validator's input)

The validator receives the plan as a free-form JSON map and reads it with
`dict.get`; we model each tracked key as an `Option` field (`none` = key
absent or `null`). -/

structure DimEntry where
  table : Option String
  field : Option String
deriving DecidableEq, Repr

structure FilterEntry where
  table : Option String
  field : Option String
  op : Option String
  value : Option JVal
deriving DecidableEq, Repr

structure SortEntry where
  sort_by : Option String   -- source key `by` (a Lean keyword)
  order : Option String
deriving DecidableEq, Repr

structure TimeRangeMap where
  start : Option String
  stop : Option String      -- source key `end` (a Lean keyword)
deriving DecidableEq, Repr

structure OutputEntry where
  format : Option String
  chart_suggest : Option String
deriving DecidableEq, Repr

/-- A plan as a free-form map over the keys of the Plan DSL.  `confidence`
holds the raw JSON number literal. -/
structure PlanMap where
  version : Option String
  intent : Option String
  metric_id : Option String
  metric_params : Option (List (String × JVal))
  dimensions : Option (List DimEntry)
  time_range : Option TimeRangeMap
  time_grain : Option String
  filters : Option (List FilterEntry)
  join_path_id : Option String
  sort : Option SortEntry
  limit : Option Int
  output : Option OutputEntry
  confidence : Option String
  clarifications : Option (List String)
  errors_unresolved : Option (List String)
deriving DecidableEq, Repr

/-- Python truthiness of an optional string value. -/
def truthyStr : Option String → Bool
  | some s => s ≠ ""
  | none => false

/-- Python truthiness of the `time_range` dict (tracked keys only). -/
def truthyTR : Option TimeRangeMap → Bool
  | some tr => tr.start.isSome || tr.stop.isSome
  | none => false

/-- Python truthiness of the `sort` dict (tracked keys only). -/
def truthySort : Option SortEntry → Bool
  | some s => s.sort_by.isSome || s.order.isSome
  | none => false

/-- Python truthiness of the optional `limit` integer (`0` is falsy). -/
def truthyLimit : Option Int → Bool
  | some n => n ≠ 0
  | none => false

/-! ## Structural (JSON-Schema) validation -/

def INTENTS : List String := ["trend", "aggregate", "rank", "compare", "detail"]
def GRAINS : List String := ["15m", "hour", "day", "week", "month"]
def FILTER_OPS : List String := ["=", "!=", ">", ">=", "<", "<=", "in", "like", "between"]
def OUTPUT_FORMATS : List String := ["table", "single_value"]
def CHART_SUGGESTS : List String := ["line", "bar", "heatmap", "none"]
def SORT_ORDERS : List String := ["asc", "desc"]

def digitVal (c : Char) : Option Nat :=
  if c.isDigit then some (c.toNat - 48) else none

/-- Split a character list at every `'.'`. -/
def splitOnDotAll : List Char → List (List Char)
  | [] => [[]]
  | c :: rest =>
    if c = '.' then [] :: splitOnDotAll rest
    else match splitOnDotAll rest with
      | h :: t => (c :: h) :: t
      | [] => [[c]]

def natOfDigits : List Char → Nat → Option Nat
  | [], acc => some acc
  | c :: cs, acc =>
    match digitVal c with
    | some d => natOfDigits cs (acc * 10 + d)
    | none => none

/-- Decimal literal in `[0, 1]` (digits with an optional fraction part). -/
def decimal01 (s : String) : Bool :=
  match splitOnDotAll s.data with
  | [intPart] =>
    !intPart.isEmpty &&
      (natOfDigits intPart 0 = some 0 || natOfDigits intPart 0 = some 1)
  | [intPart, fracPart] =>
    !intPart.isEmpty && !fracPart.isEmpty &&
      fracPart.all Char.isDigit &&
      (natOfDigits intPart 0 = some 0 ||
       (natOfDigits intPart 0 = some 1 && fracPart.all (fun c => c = '0')))
  | _ => false

def schemaErr (path msg : String) : ValidationError :=
  ⟨"schema", msg, path, []⟩

/-- Modelled from the spec: the pass/fail condition of each key of the
Draft-7 Plan DSL JSON-Schema, in key order.  The schema document
`schemas/plan_dsl.schema.json` and the `jsonschema` engine are not part of
the sources; per the specification (§3, §6) every key of the Plan DSL is
required except `sort`, `limit` and `errors_unresolved`, the enumerated
fields are closed sets, `limit` lies in `[1, 10000]` and `confidence` in
`[0, 1]`.  Exact engine messages are not modelled. -/
def schema_checks (p : PlanMap) : List (Bool × String × String) :=
  [(p.version == some "1.0", "version", "version must be '1.0'"),
   ((match p.intent with
     | some i => INTENTS.contains i
     | none => false), "intent", "intent missing or not in enum"),
   (p.metric_id.isSome, "metric_id", "metric_id is required"),
   ((match p.dimensions with
     | some dims => dims.all (fun d => d.table.isSome && d.field.isSome)
     | none => false), "dimensions", "dimensions missing or entries need table and field"),
   ((match p.time_range with
     | some tr => tr.start.isSome && tr.stop.isSome
     | none => false), "time_range", "time_range missing or needs start and end"),
   ((match p.time_grain with
     | some g => GRAINS.contains g
     | none => false), "time_grain", "time_grain missing or not in enum"),
   ((match p.filters with
     | some fs => fs.all (fun f => f.table.isSome && f.field.isSome && f.value.isSome &&
         (match f.op with
          | some o => FILTER_OPS.contains o
          | none => false))
     | none => false), "filters", "filters missing or entries need table, field, op and value"),
   (p.join_path_id.isSome, "join_path_id", "join_path_id is required"),
   ((match p.sort with
     | some s =>
       s.sort_by.isSome &&
         (match s.order with
          | some o => SORT_ORDERS.contains o
          | none => false)
     | none => true), "sort", "sort needs by and order"),
   ((match p.limit with
     | some n => decide (1 ≤ n) && decide (n ≤ 10000)
     | none => true), "limit", "limit out of range"),
   ((match p.output with
     | some o =>
       (match o.format with
        | some fm => OUTPUT_FORMATS.contains fm
        | none => false) &&
       (match o.chart_suggest with
        | some c => CHART_SUGGESTS.contains c
        | none => false)
     | none => false), "output", "output missing or format/chart_suggest invalid"),
   ((match p.confidence with
     | some c => decimal01 c
     | none => false), "confidence", "confidence missing or out of range"),
   (p.clarifications.isSome, "clarifications", "clarifications is required")]

/-- Modelled from the spec: the Draft-7 JSON-Schema check — one `schema`
error per failed key check, in key order. -/
def schema_errors (p : PlanMap) : List ValidationError :=
  (schema_checks p).filterMap (fun c => if c.1 then none else some (schemaErr c.2.1 c.2.2))

/-! ## Semantic validator (translated from `app/core/planning/validator.py`) -/

namespace PlanValidator

def insertStr (x : String) : List String → List String
  | [] => [x]
  | y :: ys => if x ≤ y then x :: y :: ys else y :: insertStr x ys

/-- Ascending insertion sort over strings (code-point lexicographic, the
order of Python `sorted`). -/
def sortStrs (l : List String) : List String := l.foldr insertStr []

/-- Python `sorted(<set of strings>)`: the unique members in ascending
order. -/
def sorted_strings (l : List String) : List String := sortStrs l.dedup

/-- Model of Python `date.fromisoformat` on `YYYY-MM-DD` input (the only
shape the spec admits): four digit year ≥ 1, calendar-valid month and day. -/
def days_in_month (y m : Nat) : Nat :=
  if m = 2 then
    if y % 4 = 0 && (y % 100 ≠ 0 || y % 400 = 0) then 29 else 28
  else if m = 4 || m = 6 || m = 9 || m = 11 then 30
  else 31

def parse_iso_date (s : String) : Option (Nat × Nat × Nat) :=
  match s.data with
  | [y1, y2, y3, y4, s1, m1, m2, s2, d1, d2] =>
    if s1 = '-' && s2 = '-' then
      match digitVal y1, digitVal y2, digitVal y3, digitVal y4,
            digitVal m1, digitVal m2, digitVal d1, digitVal d2 with
      | some a, some b, some c, some d, some e, some f, some g, some h =>
        let y := ((a * 10 + b) * 10 + c) * 10 + d
        let m := e * 10 + f
        let dd := g * 10 + h
        if 1 ≤ y && 1 ≤ m && m ≤ 12 && 1 ≤ dd && dd ≤ days_in_month y m then
          some (y, m, dd)
        else none
      | _, _, _, _, _, _, _, _ => none
    else none
  | _ => none

/-- Lexicographic strict order on parsed dates (`start_date > end_date`). -/
def date_lt (a b : Nat × Nat × Nat) : Bool :=
  a.1 < b.1 || (a.1 = b.1 && (a.2.1 < b.2.1 || (a.2.1 = b.2.1 && a.2.2 < b.2.2)))

/-- The `metric_not_found` check. -/
def metric_errors (p : PlanMap) (ev : EvidenceBundle) : List ValidationError :=
  let metric_ids := ev.metric_candidates.map (fun m => m.metric_id)
  let known := match p.metric_id with
    | some mid => metric_ids.contains mid
    | none => false
  if known then []
  else [⟨"metric_not_found", "metric_id not in candidates", "metric_id", sorted_strings metric_ids⟩]

/-- Python `f"{d.get('table')}.{d.get('field')}"` (a missing key renders as
`"None"`). -/
def dimKey (t f : Option String) : String :=
  t.getD "None" ++ "." ++ f.getD "None"

def dim_errors_go (schema_fields : List String) : Nat → List DimEntry → List ValidationError
  | _, [] => []
  | idx, dim :: rest =>
    let key := dimKey dim.table dim.field
    (if schema_fields.contains key then []
     else [⟨"dimension_field_invalid",
            "Dimension field " ++ key ++ " not in schema candidates",
            "dimensions[" ++ toString idx ++ "]",
            (sorted_strings schema_fields).take 5⟩]) ++
    dim_errors_go schema_fields (idx + 1) rest

def dimension_errors (p : PlanMap) (ev : EvidenceBundle) : List ValidationError :=
  let schema_fields := ev.schema_candidates.map (fun s => s.table ++ "." ++ s.field)
  dim_errors_go schema_fields 0 (p.dimensions.getD [])

def fil_errors_go (schema_fields : List String) : Nat → List FilterEntry → List ValidationError
  | _, [] => []
  | idx, fil :: rest =>
    let key := dimKey fil.table fil.field
    (if schema_fields.contains key then []
     else [⟨"filter_field_invalid",
            "Filter field " ++ key ++ " not in schema candidates",
            "filters[" ++ toString idx ++ "]",
            (sorted_strings schema_fields).take 5⟩]) ++
    fil_errors_go schema_fields (idx + 1) rest

def filter_errors (p : PlanMap) (ev : EvidenceBundle) : List ValidationError :=
  let schema_fields := ev.schema_candidates.map (fun s => s.table ++ "." ++ s.field)
  fil_errors_go schema_fields 0 (p.filters.getD [])

/-- `PlanValidator._pick_time_table`, first loop (restricted to preferred
tables). -/
def pick_time_table_scan1 (preferred : List String) : List SchemaEntity → Option String
  | [] => none
  | item :: rest =>
    if preferred.contains item.table then
      if TIME_FIELD_NAMES.contains (pyLower item.field) then some item.table
      else if TIME_DATA_TYPES.contains (pyLower item.data_type) then some item.table
      else pick_time_table_scan1 preferred rest
    else pick_time_table_scan1 preferred rest

/-- `PlanValidator._pick_time_table`, second loop (any candidate). -/
def pick_time_table_scan2 : List SchemaEntity → Option String
  | [] => none
  | item :: rest =>
    if TIME_FIELD_NAMES.contains (pyLower item.field) then some item.table
    else if TIME_DATA_TYPES.contains (pyLower item.data_type) then some item.table
    else pick_time_table_scan2 rest

def pick_time_table (ev : EvidenceBundle) (preferred : List String) : String :=
  match (if preferred ≠ [] then pick_time_table_scan1 preferred ev.schema_candidates
         else none) with
  | some t => t
  | none => (pick_time_table_scan2 ev.schema_candidates).getD ""

/-- `PlanValidator._collect_tables`: dimension tables ∪ filter tables ∪
metric required-field tables ∪ the chosen time table (the source builds a
Python `set`; we use a `Finset`). -/
def collect_tables (p : PlanMap) (ev : EvidenceBundle) : Finset String :=
  let dimTables := (p.dimensions.getD []).filterMap (fun d =>
    match d.table with
    | some t => if t ≠ "" then some t else none
    | none => none)
  let filTables := (p.filters.getD []).filterMap (fun f =>
    match f.table with
    | some t => if t ≠ "" then some t else none
    | none => none)
  let metricRF := match p.metric_id with
    | some mid =>
      match ev.metric_candidates.find? (fun (m : MetricDef) => m.metric_id == mid) with
      | some m => m.required_fields
      | none => []
    | none => []
  let metric_tables := metricRF.filterMap (fun f => (splitDot f).map Prod.fst)
  let time_table := pick_time_table ev metric_tables
  (dimTables ++ filTables ++ metric_tables ++
    (if time_table ≠ "" then [time_table] else [])).toFinset

/-- `PlanValidator._suggest_join_paths`. -/
def suggest_join_paths (referenced : Finset String) (ev : EvidenceBundle) : List String :=
  ev.join_paths.filterMap (fun jp =>
    if referenced ⊆ jp.tables.toFinset then some jp.join_path_id else none)

/-- `PlanValidator._check_join_reachability`. -/
def check_join_reachability (p : PlanMap) (ev : EvidenceBundle) : List ValidationError :=
  let referenced := collect_tables p ev
  if referenced = ∅ then []
  else if p.join_path_id = some "NONE" then
    if 1 < referenced.card then
      [⟨"join_required", "Multiple tables referenced but join_path_id is NONE",
        "join_path_id", suggest_join_paths referenced ev⟩]
    else []
  else
    let join_path : Option JoinPath := match p.join_path_id with
      | some j => ev.join_paths.find? (fun (jp : JoinPath) => jp.join_path_id == j)
      | none => none
    match join_path with
    | some jp =>
      if ¬ referenced ⊆ jp.tables.toFinset then
        [⟨"join_path_unreachable", "join_path_id does not cover all referenced tables",
          "join_path_id", suggest_join_paths referenced ev⟩]
      else []
    | none => []

/-- The join-path branch of `validate` (not-found check, else reachability). -/
def join_errors (p : PlanMap) (ev : EvidenceBundle) : List ValidationError :=
  let join_ids := ev.join_paths.map (fun j => j.join_path_id)
  let inIds := match p.join_path_id with
    | some j => join_ids.contains j
    | none => false
  if p.join_path_id != some "NONE" && !inIds then
    let referenced := collect_tables p ev
    let sug0 := suggest_join_paths referenced ev
    let suggestions := if sug0 ≠ [] then sug0 else sorted_strings join_ids
    [⟨"join_path_not_found", "join_path_id not in candidates", "join_path_id", suggestions⟩]
  else check_join_reachability p ev

/-- The time-range block of `validate`. -/
def time_range_errors (p : PlanMap) : List ValidationError :=
  let tr := p.time_range.getD ⟨none, none⟩
  if truthyStr tr.start && truthyStr tr.stop then
    match parse_iso_date (tr.start.getD ""), parse_iso_date (tr.stop.getD "") with
    | some d1, some d2 =>
      if date_lt d2 d1 then
        [⟨"time_range_invalid", "time_range.start is after end", "time_range", []⟩]
      else []
    | _, _ =>
      [⟨"time_range_invalid", "time_range must be YYYY-MM-DD", "time_range", ["YYYY-MM-DD"]⟩]
  else [⟨"time_range_missing", "time_range is required", "time_range", []⟩]

/-- The trend / time-grain block of `validate`. -/
def time_grain_errors (p : PlanMap) : List ValidationError :=
  if p.intent == some "trend" && !truthyStr p.time_grain then
    [⟨"time_grain_required", "time_grain required for trend intent", "time_grain",
      ["15m", "hour", "day", "week", "month"]⟩]
  else []

/-- `PlanValidator._has_time_field`. -/
def has_time_field (ev : EvidenceBundle) : Bool :=
  ev.schema_candidates.any (fun item =>
    TIME_FIELD_NAMES.contains (pyLower item.field) ||
    TIME_DATA_TYPES.contains (pyLower item.data_type)) ||
  ev.metric_candidates.any (fun m => m.required_fields.any (fun f =>
    let fld := match splitDot f with
      | some (_, x) => x
      | none => f
    TIME_FIELD_NAMES.contains (pyLower fld)))

def time_field_errors (ev : EvidenceBundle) : List ValidationError :=
  if has_time_field ev then []
  else [⟨"time_field_missing", "No time field found in schema candidates", "time_range", []⟩]

/-- `PlanValidator._required_funcs`. -/
def required_funcs (p : PlanMap) : List String :=
  if p.intent ≠ some "trend" then []
  else match p.time_grain with
    | some g =>
      if g = "15m" then ["from_unixtime", "unix_timestamp"]
      else if g = "hour" || g = "day" || g = "month" then ["date_format"]
      else if g = "week" then ["yearweek"]
      else []
    | none => []

/-- `PlanValidator._required_aggs` (an empty `metric_id` is falsy). -/
def required_aggs (p : PlanMap) (ev : EvidenceBundle) : List String :=
  match p.metric_id with
  | some mid =>
    if mid = "" then []
    else if ev.metric_candidates.any (fun m => m.metric_id == mid) then ["sum"]
    else []
  | none => []

/-- The `required_clauses` loop body of `_check_template_rules`. -/
def clause_errors (p : PlanMap) (rule : TemplateRule) (clause : String) : List ValidationError :=
  (if clause == "time_range" && !truthyTR p.time_range then
     [⟨"required_clause_missing", "time_range required by template", "time_range", []⟩]
   else []) ++
  (if clause == "time_grain" && !truthyStr p.time_grain then
     [⟨"required_clause_missing", "time_grain required by template", "time_grain", [rule.intent]⟩]
   else []) ++
  (if clause == "group_by_time" && !truthyStr p.time_grain then
     [⟨"required_clause_missing", "group_by_time required by template", "time_grain", ["day"]⟩]
   else []) ++
  (if clause == "order_by" && !truthySort p.sort then
     [⟨"required_clause_missing", "sort required by template", "sort", ["metric desc"]⟩]
   else []) ++
  (if clause == "limit" && !truthyLimit p.limit then
     [⟨"required_clause_missing", "limit required by template", "limit", ["10"]⟩]
   else [])

/-- One rule of `_check_template_rules`. -/
def rule_errors (p : PlanMap) (ev : EvidenceBundle) (rule : TemplateRule) : List ValidationError :=
  if p.intent ≠ some rule.intent then []
  else
    let funcs := required_funcs p
    (if !funcs.isEmpty && !funcs.all (fun f => rule.allowed_funcs.contains f) then
       [⟨"function_not_allowed", "Required functions not in allowlist", "time_grain",
         rule.allowed_funcs⟩]
     else []) ++
    (let aggs := required_aggs p ev
     if !aggs.isEmpty && !aggs.all (fun a => rule.allowed_aggs.contains a) then
       [⟨"agg_not_allowed", "Required aggregations not in allowlist", "metric_id",
         rule.allowed_aggs⟩]
     else []) ++
    (rule.required_clauses.map (clause_errors p rule)).flatten

/-- `PlanValidator._check_template_rules`. -/
def template_errors (p : PlanMap) (ev : EvidenceBundle) : List ValidationError :=
  (ev.template_rules.map (rule_errors p ev)).flatten

/-- The accumulated semantic checks of `validate` (everything after the
structural check), in source order. -/
def semantic_errors (p : PlanMap) (ev : EvidenceBundle) : List ValidationError :=
  metric_errors p ev ++
  dimension_errors p ev ++
  filter_errors p ev ++
  join_errors p ev ++
  time_range_errors p ++
  time_grain_errors p ++
  time_field_errors ev ++
  template_errors p ev

/-- `PlanValidator.validate` on a JSON object: structural errors short-circuit
(`if errors: return errors`), otherwise the semantic checks accumulate. -/
def validate (p : PlanMap) (ev : EvidenceBundle) : List ValidationError :=
  let errs0 := schema_errors p
  if errs0 ≠ [] then errs0 else semantic_errors p ev

/-- `PlanValidator.validate` on arbitrary input (`not_json` when the plan is
not a JSON object). -/
def validate_input (plan : Option PlanMap) (ev : EvidenceBundle) : List ValidationError :=
  match plan with
  | none => [⟨"not_json", "Plan is not a JSON object", "$", []⟩]
  | some p => validate p ev

/-- State-passing form of `validate`.  The source never assigns into the
plan map or the evidence bundle (it only reads them and allocates fresh
error records), so the translation returns both inputs unchanged alongside
the error list. -/
def validate_run (p : PlanMap) (ev : EvidenceBundle) :
    List ValidationError × PlanMap × EvidenceBundle :=
  (validate p ev, p, ev)

end PlanValidator

/-! ## Tokenisation (regex `[a-zA-Z0-9_]+|[一-鿿]`, shared by
`faiss_store._tokenize` and `Planner._simple_tokens`) -/

def isTokenChar (c : Char) : Bool := c.isAlphanum || c = '_'

def isCjk (c : Char) : Bool := 0x4E00 ≤ c.toNat && c.toNat ≤ 0x9FFF

def tokensGo : List Char → List Char → List String
  | [], acc => if acc.isEmpty then [] else [String.mk acc.reverse]
  | c :: cs, acc =>
    if isTokenChar c then tokensGo cs (c :: acc)
    else
      let flushed := if acc.isEmpty then [] else [String.mk acc.reverse]
      if isCjk c then flushed ++ String.mk [c] :: tokensGo cs []
      else flushed ++ tokensGo cs []

/-- `Planner._simple_tokens`: ASCII word-character runs and single CJK
ideographs, in order of appearance. -/
def simple_tokens (text : String) : List String := tokensGo text.data []

/-- `faiss_store._tokenize`: the same token extraction over the lowercased
text. -/
def tokenize (text : String) : List String := simple_tokens (pyLower text)

/-! ## Planner guard steps (translated from `app/core/planning/planner.py`) -/

namespace Planner

/-- Model of regex `\w` for the keyword scan (ASCII word characters; CJK
ideographs are also word characters under Python's unicode `\w`). -/
def isWordChar (c : Char) : Bool := c.isAlphanum || c = '_' || isCjk c

/-- Model of regex `\s` (ASCII whitespace). -/
def isSpaceChar (c : Char) : Bool :=
  c = ' ' || c = '\t' || c = '\n' || c = '\r' || c.toNat = 11 || c.toNat = 12

/-- Consume a literal word, returning the remainder. -/
def dropLit : List Char → List Char → Option (List Char)
  | [], rest => some rest
  | _ :: _, [] => none
  | n :: ns, c :: cs => if c = n then dropLit ns cs else none

def skipSpaces : List Char → List Char
  | [] => []
  | c :: rest => if isSpaceChar c then skipSpaces rest else c :: rest

/-- Consume `\s+` (at least one whitespace character). -/
def dropSpaces1 : List Char → Option (List Char)
  | [] => none
  | c :: rest => if isSpaceChar c then some (skipSpaces rest) else none

def boundaryAfter : List Char → Bool
  | [] => true
  | c :: _ => !isWordChar c

def matchSingle (kw : String) (cs : List Char) : Bool :=
  match dropLit kw.data cs with
  | some rest => boundaryAfter rest
  | none => false

def matchCompound (w1 w2 : String) (cs : List Char) : Bool :=
  match dropLit w1.data cs with
  | some r1 =>
    match dropSpaces1 r1 with
    | some r2 =>
      match dropLit w2.data r2 with
      | some r3 => boundaryAfter r3
      | none => false
    | none => false
  | none => false

def SQL_KEYWORD_SINGLES : List String :=
  ["select", "from", "where", "join", "insert", "update", "delete"]

/-- Does any alternative of
`\b(select|from|where|join|group\s+by|order\s+by|insert|update|delete)\b`
match starting at this position?  (The leading boundary is checked by the
caller.) -/
def matchKeywordAt (cs : List Char) : Bool :=
  SQL_KEYWORD_SINGLES.any (fun kw => matchSingle kw cs) ||
  matchCompound "group" "by" cs || matchCompound "order" "by" cs

/-- Scan every position; the flag records whether the previous character was
a non-word character (i.e. a `\b` position). -/
def scanGo : Bool → List Char → Bool
  | _, [] => false
  | atB, c :: cs => (atB && matchKeywordAt (c :: cs)) || scanGo (!isWordChar c) cs

/-- `Planner._contains_sql_keywords` (`re.IGNORECASE` is modelled by
lowercasing the text; the keyword alternatives are lowercase). -/
def contains_sql_keywords (text : String) : Bool := scanGo true (pyLower text).data

/-! JSON serialization of a plan map, modelling
`json.dumps(plan, ensure_ascii=False)` (separators `", "` / `": "`).
Key order follows the Plan DSL field order; the LLM-produced dict's
insertion order is not observable from the sources and no claim depends
on it.  A tracked key that is absent is omitted. -/

def hexDigit (n : Nat) : String :=
  if n < 10 then toString n
  else if n = 10 then "a" else if n = 11 then "b" else if n = 12 then "c"
  else if n = 13 then "d" else if n = 14 then "e" else "f"

def json_escape_char (c : Char) : String :=
  if c = '"' then "\\\""
  else if c = '\\' then "\\\\"
  else if c = '\n' then "\\n"
  else if c = '\t' then "\\t"
  else if c = '\r' then "\\r"
  else if c.toNat = 8 then "\\b"
  else if c.toNat = 12 then "\\f"
  else if c.toNat < 32 then "\\u00" ++ hexDigit (c.toNat / 16) ++ hexDigit (c.toNat % 16)
  else String.mk [c]

def jstr (s : String) : String :=
  "\"" ++ String.join (s.data.map json_escape_char) ++ "\""

def jScalarStr : JScalar → String
  | .str v => jstr v
  | .int n => toString n
  | .numRaw l => l
  | .bool b => if b then "true" else "false"
  | .null => "null"

def jValStr : JVal → String
  | .scalar v => jScalarStr v
  | .arr vs => "[" ++ String.intercalate ", " (vs.map jScalarStr) ++ "]"

def jObj (fields : List String) : String :=
  "\x7b" ++ String.intercalate ", " fields ++ "\x7d"

def jArr (items : List String) : String :=
  "[" ++ String.intercalate ", " items ++ "]"

def optField (k : String) : Option String → List String
  | some v => [jstr k ++ ": " ++ v]
  | none => []

def serialize_dim (d : DimEntry) : String :=
  jObj (optField "table" (d.table.map jstr) ++ optField "field" (d.field.map jstr))

def serialize_filter (f : FilterEntry) : String :=
  jObj (optField "table" (f.table.map jstr) ++ optField "field" (f.field.map jstr) ++
        optField "op" (f.op.map jstr) ++ optField "value" (f.value.map jValStr))

def serialize_tr (tr : TimeRangeMap) : String :=
  jObj (optField "start" (tr.start.map jstr) ++ optField "end" (tr.stop.map jstr))

def serialize_sort (s : SortEntry) : String :=
  jObj (optField "by" (s.sort_by.map jstr) ++ optField "order" (s.order.map jstr))

def serialize_output (o : OutputEntry) : String :=
  jObj (optField "format" (o.format.map jstr) ++
        optField "chart_suggest" (o.chart_suggest.map jstr))

/-- `json.dumps(plan, ensure_ascii=False)` over the tracked keys. -/
def serialize_plan (p : PlanMap) : String :=
  jObj (
    optField "version" (p.version.map jstr) ++
    optField "intent" (p.intent.map jstr) ++
    optField "metric_id" (p.metric_id.map jstr) ++
    optField "metric_params" (p.metric_params.map (fun kvs =>
      jObj (kvs.map (fun kv => jstr kv.1 ++ ": " ++ jValStr kv.2)))) ++
    optField "dimensions" (p.dimensions.map (fun ds => jArr (ds.map serialize_dim))) ++
    optField "time_range" (p.time_range.map serialize_tr) ++
    optField "time_grain" (p.time_grain.map jstr) ++
    optField "filters" (p.filters.map (fun fs => jArr (fs.map serialize_filter))) ++
    optField "join_path_id" (p.join_path_id.map jstr) ++
    optField "sort" (p.sort.map serialize_sort) ++
    optField "limit" (p.limit.map toString) ++
    optField "output" (p.output.map serialize_output) ++
    optField "confidence" p.confidence ++
    optField "clarifications" (p.clarifications.map (fun cs => jArr (cs.map jstr))) ++
    optField "errors_unresolved" (p.errors_unresolved.map (fun es => jArr (es.map jstr))))

/-- The two failure kinds of the fail-closed step; the specification
(§4.3 step 6) names them `plan_validation_failed` and the
SQL-keyword kind rendered here as `llm_output_not_safe`. -/
inductive PlanFailure where
  | plan_validation_failed (messages : List String)
  | llm_output_not_safe
deriving DecidableEq, Repr

/-- The fail-closed tail of `Planner.generate_plan` (source lines 112-119):
remaining validation errors raise `plan_validation_failed`; otherwise the
serialized plan is scanned for SQL keywords and any hit raises
`llm_output_not_safe`; otherwise the plan is returned for freezing. -/
def fail_closed (p : PlanMap) (errors : List ValidationError) : Except PlanFailure PlanMap :=
  if errors ≠ [] then
    .error (.plan_validation_failed (errors.map (fun e => e.message)))
  else if contains_sql_keywords (serialize_plan p) then
    .error .llm_output_not_safe
  else .ok p

/-- The engine's stage structure around planning and compilation
(`Text2SQLEngine.run_query`): the compiler runs only after plan generation
returned a plan.  The second component records the stages entered
(the engine's `stage` variable). -/
def run_plan_and_compile (p : PlanMap) (errors : List ValidationError)
    (toPlan : PlanMap → PlanDSL) (ev : EvidenceBundle) :
    Except PlanFailure (Except String SqlCompiler.CompiledQuery) × List String :=
  match fail_closed p errors with
  | .error e => (.error e, ["plan"])
  | .ok p' => (.ok (SqlCompiler.compile (toPlan p') ev), ["plan", "compile"])

/-- The combined searchable text and score of `Planner._auto_fix_metric_id`
for one metric. -/
def score_metric (q : String) (metric : MetricDef) : Int :=
  let text := pyLower (String.intercalate " "
    [metric.metric_id, metric.name, metric.definition, metric.formula,
     String.intercalate " " metric.required_fields])
  let base : Int :=
    2 * ((simple_tokens q).filter (fun tok => tok ≠ "" && strContains text tok)).length
  let b1 : Int :=
    if (["金额", "费用", "cost", "amount"].any (fun k => strContains q k)) &&
       (strContains text "amount" || strContains text "total_amount") then 5 else 0
  let b2 : Int :=
    if (["用电量", "用电", "电量", "consumption", "kwh"].any (fun k => strContains q k)) &&
       strContains text "consumption" then 5 else 0
  let b3 : Int := if strContains q "账单" && strContains text "bills." then 3 else 0
  base + b1 + b2 + b3

/-- One iteration of the best-score loop of `_auto_fix_metric_id`. -/
def auto_fix_step (q : String) (acc : Int × String) (metric : MetricDef) : Int × String :=
  let score := score_metric q metric
  if acc.1 < score then (score, metric.metric_id) else acc

/-- `Planner._auto_fix_metric_id`: keep the best-scoring metric id, starting
from `best_score = -1`, `best_id = ""`, taking the earlier metric on ties. -/
def auto_fix_metric_id (question : String) (metrics : List MetricDef) : String :=
  let q := pyLower question
  (metrics.foldl (auto_fix_step q) (-1, "")).2

/-- The `metric_not_found` recovery block of `Planner.generate_plan`
(source lines 78-88): replace the metric candidates with the full MetricKB,
overwrite the plan's `metric_id` when the auto-fix chose a non-empty id,
and revalidate. -/
def metric_fix_step (question : String) (p : PlanMap) (kb : List MetricDef)
    (ev : EvidenceBundle) : PlanMap × EvidenceBundle × List ValidationError :=
  let ev' : EvidenceBundle :=
    { metric_candidates := kb, schema_candidates := ev.schema_candidates,
      join_paths := ev.join_paths, template_rules := ev.template_rules }
  let fixed := auto_fix_metric_id question kb
  let p' := if fixed ≠ "" then { p with metric_id := some fixed } else p
  (p', ev', PlanValidator.validate p' ev')

end Planner

/-! ## In-memory vector store (translated from `app/core/rag/faiss_store.py`) -/

namespace VectorIndex

/-- One stored document: `_docs[doc_id]` together with
`_tokens[doc_id] = set(_tokenize(text))`; the list order is the dicts'
shared insertion order.  Metadata values are modelled as strings. -/
structure Entry where
  doc_id : String
  text : String
  metadata : List (String × String)
  tokens : Finset String
deriving DecidableEq

/-- A scored result: the document plus the data defining its score
`inter / sqrt(qcard * dcard)` and its position `idx` in insertion order. -/
structure ScoredDoc where
  idx : ℕ
  doc_id : String
  text : String
  metadata : List (String × String)
  inter : ℕ
  qcard : ℕ
  dcard : ℕ
deriving DecidableEq

/-- The square of the cosine score, as an exact rational.  The float score
`inter / (qcard ** 0.5 * dcard ** 0.5)` is nonnegative and squaring is
strictly monotone on nonnegatives, so score comparisons are modelled
exactly by `score_sq` comparisons in `ℚ`. -/
def ScoredDoc.score_sq (d : ScoredDoc) : ℚ :=
  (d.inter ^ 2 : ℚ) / ((d.qcard : ℚ) * (d.dcard : ℚ))

/-- Python `metadata.get(k)`. -/
def metadata_get (md : List (String × String)) (k : String) : Option String :=
  (md.find? (fun kv => kv.1 == k)).map (fun kv => kv.2)

/-- The `filter` check of `query`: skip docs where any filter key/value pair
disagrees with the metadata (an empty filter restricts nothing). -/
def matches_filter (filter : List (String × String)) (md : List (String × String)) : Bool :=
  filter.all (fun kv => metadata_get md kv.1 == some kv.2)

/-- The scoring loop of `query` in insertion order.  `_cosine_sim` is
strictly positive exactly when the token sets intersect (an empty set on
either side gives score `0.0`). -/
def scored_candidates (store : List Entry) (qt : Finset String)
    (filter : List (String × String)) : List ScoredDoc :=
  store.enum.filterMap (fun ie =>
    if matches_filter filter ie.2.metadata && 0 < (qt ∩ ie.2.tokens).card then
      some ⟨ie.1, ie.2.doc_id, ie.2.text, ie.2.metadata,
            (qt ∩ ie.2.tokens).card, qt.card, ie.2.tokens.card⟩
    else none)

/-- Stable descending insertion: an element passes over exactly the strictly
higher-scored prefix, so equal scores keep their original order — the
behaviour of `list.sort(key=..., reverse=True)`. -/
def insertDesc (x : ScoredDoc) : List ScoredDoc → List ScoredDoc
  | [] => [x]
  | y :: ys => if x.score_sq < y.score_sq then y :: insertDesc x ys else x :: y :: ys

def py_sort_desc (l : List ScoredDoc) : List ScoredDoc := l.foldr insertDesc []

/-- `SimpleInMemoryVectorStore.query`. -/
def query (store : List Entry) (text : String) (top_k : ℕ)
    (filter : List (String × String)) : List ScoredDoc :=
  let q_tokens := (tokenize text).toFinset
  if q_tokens = ∅ then []
  else (py_sort_desc (scored_candidates store q_tokens filter)).take top_k

/-- The ranking order the result list must satisfy: strictly higher score
first, equal scores resolved by insertion position. -/
def rank_order (a b : ScoredDoc) : Prop :=
  b.score_sq < a.score_sq ∨ (a.score_sq = b.score_sq ∧ a.idx < b.idx)

end VectorIndex

/-! ## Claim-side auxiliary definitions and concrete instances -/

/-- The time-field selection rule exactly as claim C4 states it: a first
pass over all schema candidates by field name, only then a second pass by
data type, only then the metric-required-field fallback. -/
def claimed_pick_time_field (ev : EvidenceBundle) (md : MetricDef) :
    Except String (String × String) :=
  match ev.schema_candidates.find? (fun c => TIME_FIELD_NAMES.contains (pyLower c.field)) with
  | some c => .ok (c.table, c.field)
  | none =>
    match ev.schema_candidates.find? (fun c => TIME_DATA_TYPES.contains (pyLower c.data_type)) with
    | some c => .ok (c.table, c.field)
    | none => SqlCompiler.pick_time_field_fallback md.required_fields

/-- Evidence refuting C4's ordering: the first candidate is only
time-typed (`datetime`), a later candidate has the time-field name `ts`. -/
def c4_ev : EvidenceBundle :=
  ⟨[], [⟨"t1", "created", "", [], "", "datetime", []⟩,
        ⟨"t2", "ts", "", [], "", "varchar", []⟩], [], []⟩

def c4_md : MetricDef := ⟨"m", "", "", "", [], "", ""⟩

/-- A small evidence bundle: one metric over `feeder`, a `feeder.ts` time
column, a `transformer.cap` dimension column, one join path covering both
tables. -/
def c5_md : MetricDef :=
  ⟨"load_rate", "Load rate", "", "", ["feeder.load_kw", "feeder.capacity_kw"], "day", "ratio"⟩

def c5_ev : EvidenceBundle :=
  ⟨[c5_md],
   [⟨"feeder", "ts", "", [], "", "datetime", []⟩,
    ⟨"transformer", "cap", "", [], "", "string", []⟩],
   [⟨"jp1", "", ["feeder", "transformer"],
     [⟨"feeder", "feeder_id", "transformer", "feeder_id", "inner"⟩]⟩],
   []⟩

/-- A plan map the validator accepts against `c5_ev`. -/
def c5_pm : PlanMap :=
  { version := some "1.0", intent := some "aggregate", metric_id := some "load_rate",
    metric_params := some [], dimensions := some [⟨some "transformer", some "cap"⟩],
    time_range := some ⟨some "2024-01-01", some "2024-01-31"⟩,
    time_grain := some "day", filters := some [], join_path_id := some "jp1",
    sort := none, limit := none,
    output := some ⟨some "table", some "line"⟩, confidence := some "0.5",
    clarifications := some [], errors_unresolved := some [] }

/-- A plan that violates the structural schema (`version` is `"2.0"`) *and*
names a metric absent from the evidence. -/
def c7_pm : PlanMap := { c5_pm with version := some "2.0", metric_id := some "m_missing" }

/-- A structurally valid plan naming a metric absent from the evidence. -/
def c7_pm2 : PlanMap := { c5_pm with metric_id := some "m_missing" }

/-- A metric definition whose `metric_id` is the empty string — nothing in
the data model forbids it. -/
def c10_md_empty : MetricDef := ⟨"", "", "", "", [], "", ""⟩

/-- Evidence for the compiler witness (scenario S1's bundle plus a time
column). -/
def c1_ev : EvidenceBundle :=
  ⟨[⟨"load_rate", "Load rate", "", "", ["feeder.load_kw", "feeder.capacity_kw"], "day", "ratio"⟩],
   [⟨"feeder", "feeder_id", "", [], "", "string", []⟩,
    ⟨"feeder", "ts", "", [], "", "datetime", []⟩],
   [], []⟩

def c1_p : PlanDSL :=
  ⟨"trend", "load_rate", [⟨"feeder", "feeder_id"⟩], ⟨"2024-01-01", "2024-01-31"⟩,
   "day", [], "NONE", none, some 10⟩

/-- The same plan with an unauthorized dimension field (scenario S1). -/
def c1_pbad : PlanDSL := { c1_p with dimensions := [⟨"feeder", "bad_field"⟩] }

def c1_q : SqlCompiler.CompiledQuery :=
  (SqlCompiler.compile c1_p c1_ev).toOption.getD ⟨[], "", [], none, [], none, 0⟩

/-- A plan the validator accepts whose serialized JSON contains the SQL
keyword `select` (inside a clarification string). -/
def c8_pm : PlanMap := { c5_pm with clarifications := some ["please select wisely"] }

/-- A concrete three-document store for the vector-index witness. -/
def c9_store : List VectorIndex.Entry :=
  [⟨"d1", "feeder load", [("kind", "schema")], (tokenize "feeder load kw").toFinset⟩,
   ⟨"d2", "meter kwh", [("kind", "metric")], (tokenize "meter kwh").toFinset⟩,
   ⟨"d3", "feeder capacity", [("kind", "schema")], (tokenize "feeder capacity").toFinset⟩]

/-! ## Theorems -/

section Theorems

open SqlCompiler

/-- Inversion of a successful compilation: every intermediate step
succeeded and the result is assembled from their outputs. -/
theorem compile_ok_inv (p : PlanDSL) (ev : EvidenceBundle) (q : CompiledQuery)
    (h : compile p ev = .ok q) :
    ∃ (md : MetricDef) (tt tf : String) (bucketOpt : Option SqlExpr)
      (dim_cols : List SqlExpr) (mexpr : SqlExpr) (where_expr : Option SqlExpr)
      (order_by : Option (SqlExpr × Bool)),
      get_metric_def p.metric_id ev = .ok md ∧
      pick_time_field ev md = .ok (tt, tf) ∧
      ((p.intent = "trend" ∧
        ∃ b, time_bucket_expr tt tf p.time_grain = .ok b ∧ bucketOpt = some b) ∨
       (p.intent ≠ "trend" ∧ bucketOpt = none)) ∧
      check_dimensions p.dimensions (build_allowed_fields p ev) = .ok dim_cols ∧
      metric_expr md = .ok mexpr ∧
      apply_filters p.filters (build_allowed_fields p ev)
        (some (time_range_filter tt tf p)) = .ok where_expr ∧
      ((∃ srt, p.sort = some srt ∧
          order_expr p (build_allowed_fields p ev) srt = .ok order_by) ∨
       (p.sort = none ∧
        order_by = (if p.intent = "trend"
                    then some (SqlExpr.col none "time_bucket", false) else none))) ∧
      q = { select_exprs :=
              (match bucketOpt with
               | some b => [(b, some "time_bucket")]
               | none => []) ++
              dim_cols.map (fun c => (c, none)) ++ [(mexpr, some p.metric_id)],
            from_table := pick_base_table p ev md tt,
            joins :=
              (match get_join_path p.join_path_id ev with
               | some jp => jp.edges.map (fun edge =>
                   ((JOIN_TYPE_MAP (pyLower edge.join_type)).getD "INNER", edge.right_table,
                    SqlExpr.binop "="
                      (.col (some edge.left_table) edge.left_field)
                      (.col (some edge.right_table) edge.right_field)))
               | none => []),
            where_expr := where_expr,
            group_exprs :=
              (match bucketOpt with
               | some _ => [SqlExpr.col none "time_bucket"]
               | none => []) ++ dim_cols,
            order_by := order_by,
            limit := (match p.limit with
                      | some n => if n = 0 then 200 else n
                      | none => 200) } := by
  simp only [compile] at h
  split at h
  · simp at h
  rename_i md hmd
  split at h
  · simp at h
  rename_i tt tf hpt
  split at h
  · simp at h
  rename_i bucketOpt hbucket
  split at h
  · simp at h
  rename_i dim_cols hdims
  split at h
  · simp at h
  rename_i mexpr hmexpr
  split at h
  · simp at h
  rename_i where_expr hwhere
  split at h
  · simp at h
  rename_i order_by horder
  refine ⟨md, tt, tf, bucketOpt, dim_cols, mexpr, where_expr, order_by,
          hmd, hpt, ?_, hdims, hmexpr, hwhere, ?_, ?_⟩
  · by_cases hint : p.intent = "trend"
    · rw [if_pos hint] at hbucket
      cases hb2 : time_bucket_expr tt tf p.time_grain with
      | error e => rw [hb2] at hbucket; simp at hbucket
      | ok b =>
        rw [hb2] at hbucket
        exact Or.inl ⟨hint, b, rfl, (Except.ok.inj hbucket).symm⟩
    · rw [if_neg hint] at hbucket
      exact Or.inr ⟨hint, (Except.ok.inj hbucket).symm⟩
  · cases hs : p.sort with
    | some srt => rw [hs] at horder; exact Or.inl ⟨srt, rfl, horder⟩
    | none =>
      rw [hs] at horder
      exact Or.inr ⟨rfl, (Except.ok.inj horder).symm⟩
  · exact (Except.ok.inj h).symm

/-- C3: for every time column `t.f` and every grain in
{15m, hour, day, week, month}, the compiler's emitted bucket expression is
exactly the one of the specification's table, and any other grain value
fails compilation with `Unsupported time_grain`. -/
theorem C3_time_bucket_table (t f : String) :
    ((time_bucket_expr t f "15m").map SqlExpr.render =
      .ok ("FROM_UNIXTIME(FLOOR(UNIX_TIMESTAMP(" ++ t ++ "." ++ f ++ ")/900)*900)")) ∧
    ((time_bucket_expr t f "hour").map SqlExpr.render =
      .ok ("DATE_FORMAT(" ++ t ++ "." ++ f ++ ",'%Y-%m-%d %H:00:00')")) ∧
    ((time_bucket_expr t f "day").map SqlExpr.render =
      .ok ("DATE_FORMAT(" ++ t ++ "." ++ f ++ ",'%Y-%m-%d')")) ∧
    ((time_bucket_expr t f "week").map SqlExpr.render =
      .ok ("YEARWEEK(" ++ t ++ "." ++ f ++ ",1)")) ∧
    ((time_bucket_expr t f "month").map SqlExpr.render =
      .ok ("DATE_FORMAT(" ++ t ++ "." ++ f ++ ",'%Y-%m')")) ∧
    (∀ g, g ∉ GRAINS → time_bucket_expr t f g = .error "Unsupported time_grain") := by
  have h900 : toString (900 : Int) = "900" := rfl
  have h1 : toString (1 : Int) = "1" := rfl
  have hh : ∀ r : String,
      "FROM_UNIXTIME(" ++ ("FLOOR(" ++ ("UNIX_TIMESTAMP(" ++ r)) =
        "FROM_UNIXTIME(FLOOR(UNIX_TIMESTAMP(" ++ r := by
    intro r
    rw [← String.append_assoc, ← String.append_assoc]
    exact congrArg (· ++ r) rfl
  refine ⟨?_, ?_, ?_, ?_, ?_, ?_⟩
  · simp [time_bucket_expr, Except.map, SqlExpr.render, SqlLit.render, h900,
          String.append_assoc, hh]
  · simp [time_bucket_expr, Except.map, SqlExpr.render, SqlLit.render, String.append_assoc]
  · simp [time_bucket_expr, Except.map, SqlExpr.render, SqlLit.render, String.append_assoc]
  · simp [time_bucket_expr, Except.map, SqlExpr.render, SqlLit.render, h1, String.append_assoc]
  · simp [time_bucket_expr, Except.map, SqlExpr.render, SqlLit.render, String.append_assoc]
  · intro g hg
    simp [GRAINS] at hg
    obtain ⟨h15, hhr, hd, hw, hm⟩ := hg
    simp [time_bucket_expr, h15, hhr, hd, hw, hm]

/-- Witness for C3 at a concrete column and an out-of-table grain. -/
theorem C3_time_bucket_table_witness :
    (time_bucket_expr "t" "ts" "hour").map SqlExpr.render =
      .ok "DATE_FORMAT(t.ts,'%Y-%m-%d %H:00:00')" ∧
    "year" ∉ GRAINS ∧
    time_bucket_expr "t" "ts" "year" = .error "Unsupported time_grain" :=
  ⟨(C3_time_bucket_table "t" "ts").2.1, by decide,
   (C3_time_bucket_table "t" "ts").2.2.2.2.2 "year" (by decide)⟩

/-- C2: a metric with exactly one required field `t.x` compiles to
`SUM(t.x)`; with two required fields it compiles to
`SUM(a) / NULLIF(SUM(b), 0)`; with no required fields the metric
expression — and hence compilation for a plan resolving to this metric —
fails. -/
theorem C2_metric_formula_law :
    (∀ (md : MetricDef) (f t x : String),
       md.required_fields = [f] → splitDot f = some (t, x) →
       metric_expr md = .ok (.func1 "SUM" (.col (some t) x)) ∧
       (metric_expr md).map SqlExpr.render = .ok ("SUM(" ++ f ++ ")")) ∧
    (∀ (md : MetricDef) (fa fb ta xa tb xb : String),
       md.required_fields = [fa, fb] →
       splitDot fa = some (ta, xa) → splitDot fb = some (tb, xb) →
       metric_expr md =
         .ok (.binop "/" (.func1 "SUM" (.col (some ta) xa))
               (.func2 "NULLIF" (.func1 "SUM" (.col (some tb) xb)) (.lit (.num 0)))) ∧
       (metric_expr md).map SqlExpr.render =
         .ok ("SUM(" ++ fa ++ ")/NULLIF(SUM(" ++ fb ++ "),0)")) ∧
    (∀ md : MetricDef, md.required_fields = [] →
       metric_expr md = .error "metric required_fields empty" ∧
       ∀ (p : PlanDSL) (ev : EvidenceBundle) (q : CompiledQuery),
         get_metric_def p.metric_id ev = .ok md → compile p ev ≠ .ok q) := by
  have h0 : toString (0 : Int) = "0" := rfl
  refine ⟨?_, ?_, ?_⟩
  · intro md f t x hrf hsplit
    have hast : metric_expr md = .ok (.func1 "SUM" (.col (some t) x)) := by
      simp [metric_expr, hrf, hsplit]
    refine ⟨hast, ?_⟩
    rw [hast]
    have := splitDot_reconstruct f t x hsplit
    simp [Except.map, SqlExpr.render, ← this, String.append_assoc]
  · intro md fa fb ta xa tb xb hrf hsa hsb
    have hast : metric_expr md =
        .ok (.binop "/" (.func1 "SUM" (.col (some ta) xa))
              (.func2 "NULLIF" (.func1 "SUM" (.col (some tb) xb)) (.lit (.num 0)))) := by
      simp [metric_expr, hrf, hsa, hsb]
    refine ⟨hast, ?_⟩
    rw [hast]
    have ha := splitDot_reconstruct fa ta xa hsa
    have hb := splitDot_reconstruct fb tb xb hsb
    have hmerge : ∀ r : String, ")/" ++ ("NULLIF(" ++ ("SUM(" ++ r)) =
        ")/NULLIF(SUM(" ++ r := by
      intro r
      rw [← String.append_assoc, ← String.append_assoc]
      exact congrArg (· ++ r) rfl
    simp [Except.map, SqlExpr.render, SqlLit.render, h0, ← ha, ← hb,
          String.append_assoc, hmerge]
  · intro md hrf
    have herr : metric_expr md = .error "metric required_fields empty" := by
      simp [metric_expr, hrf]
    refine ⟨herr, ?_⟩
    intro p ev q hget hcompile
    obtain ⟨md', _, _, _, _, _, _, _, hget', _, _, _, hmexpr, _⟩ :=
      compile_ok_inv p ev q hcompile
    rw [hget] at hget'
    obtain rfl : md = md' := Except.ok.inj hget'
    rw [herr] at hmexpr
    simp at hmexpr

/-- Witness for C2 at concrete metrics (single, pair and empty
`required_fields`). -/
theorem C2_metric_formula_law_witness :
    ((metric_expr ⟨"m1", "", "", "", ["t.v"], "day", ""⟩).map SqlExpr.render =
      .ok "SUM(t.v)") ∧
    ((metric_expr ⟨"m2", "", "", "", ["a.x", "b.y"], "day", ""⟩).map SqlExpr.render =
      .ok "SUM(a.x)/NULLIF(SUM(b.y),0)") ∧
    (metric_expr ⟨"m0", "", "", "", [], "day", ""⟩ = .error "metric required_fields empty") :=
  ⟨(C2_metric_formula_law.1 ⟨"m1", "", "", "", ["t.v"], "day", ""⟩ "t.v" "t" "v" rfl rfl).2,
   (C2_metric_formula_law.2.1 ⟨"m2", "", "", "", ["a.x", "b.y"], "day", ""⟩
      "a.x" "b.y" "a" "x" "b" "y" rfl rfl rfl).2,
   (C2_metric_formula_law.2.2 ⟨"m0", "", "", "", [], "day", ""⟩ rfl).1⟩

/-- C4 counterexample: the code's `_pick_time_field` scans candidates once,
testing name-set membership *or* time-typed `data_type` per candidate, so
it returns the earlier merely-time-typed candidate `t1.created` although a
later candidate `t2.ts` carries a time-field *name* — the claim's two-pass
rule would return `t2.ts`. -/
theorem C4_pick_time_field_counterexample :
    pick_time_field c4_ev c4_md = .ok ("t1", "created") ∧
    claimed_pick_time_field c4_ev c4_md = .ok ("t2", "ts") ∧
    pick_time_field c4_ev c4_md ≠ claimed_pick_time_field c4_ev c4_md := by
  refine ⟨by decide, by decide, by decide⟩

theorem pick_scan_eq_find (l : List SchemaEntity) :
    pick_time_field_scan l =
      (l.find? (fun c => TIME_FIELD_NAMES.contains (pyLower c.field) ||
         TIME_DATA_TYPES.contains (pyLower c.data_type))).map (fun c => (c.table, c.field)) := by
  induction l with
  | nil => simp [pick_time_field_scan, List.find?]
  | cons c rest ih =>
    by_cases h1 : pyLower c.field ∈ TIME_FIELD_NAMES
    · simp [pick_time_field_scan, List.find?, h1]
    · by_cases h2 : pyLower c.data_type ∈ TIME_DATA_TYPES
      · simp [pick_time_field_scan, List.find?, h1, h2]
      · simp [pick_time_field_scan, List.find?, h1, h2, ih]

theorem fallback_eq_find (fs : List String) :
    pick_time_field_fallback fs =
      match fs.find? (fun f => strEndsWith f ".ts" || strEndsWith f ".date") with
      | some f =>
        (match splitDot f with
         | some (t, x) => .ok (t, x)
         | none => .error "No time field found for time_range")
      | none => .error "No time field found for time_range" := by
  induction fs with
  | nil => simp [pick_time_field_fallback, List.find?]
  | cons f rest ih =>
    by_cases h : (strEndsWith f ".ts" || strEndsWith f ".date") = true
    · simp [pick_time_field_fallback, List.find?, h]
    · simp [pick_time_field_fallback, List.find?, h, ih]

/-- C4 amended: the compiler picks, in a *single* scan of the schema
candidates, the first whose lowercased field name is in the time-field name
set *or* whose lowercased data type is time-typed; only if no candidate
satisfies either condition does it fall back to the first metric required
field ending in `.ts` or `.date`; if that also fails, the time-field
lookup (and hence compilation) raises the fatal
`No time field found for time_range`. -/
theorem C4_time_field_selection_amended (ev : EvidenceBundle) (md : MetricDef) :
    pick_time_field ev md =
      match ev.schema_candidates.find? (fun c =>
          TIME_FIELD_NAMES.contains (pyLower c.field) ||
          TIME_DATA_TYPES.contains (pyLower c.data_type)) with
      | some c => .ok (c.table, c.field)
      | none =>
        match md.required_fields.find?
            (fun f => strEndsWith f ".ts" || strEndsWith f ".date") with
        | some f =>
          (match splitDot f with
           | some (t, x) => .ok (t, x)
           | none => .error "No time field found for time_range")
        | none => .error "No time field found for time_range" := by
  unfold pick_time_field
  rw [pick_scan_eq_find]
  cases hf : ev.schema_candidates.find? (fun c =>
      TIME_FIELD_NAMES.contains (pyLower c.field) ||
      TIME_DATA_TYPES.contains (pyLower c.data_type)) with
  | some c => simp
  | none => simp [fallback_eq_find]

/-- Inversion of an accepted validation: the structural check passed and
every semantic chunk is empty. -/
theorem validate_nil_inv (p : PlanMap) (ev : EvidenceBundle)
    (h : PlanValidator.validate p ev = []) :
    schema_errors p = [] ∧ PlanValidator.semantic_errors p ev = [] := by
  by_cases h0 : schema_errors p = []
  · refine ⟨h0, ?_⟩
    unfold PlanValidator.validate at h
    rw [if_neg (by simp [h0])] at h
    exact h
  · unfold PlanValidator.validate at h
    rw [if_pos (by simpa using h0)] at h
    exact absurd h h0

/-- C5: a plan the validator accepts either names an evidence join path
whose `tables` cover every referenced table, or declares `NONE` and
references at most one table. -/
theorem C5_join_reachability (p : PlanMap) (ev : EvidenceBundle)
    (h : PlanValidator.validate p ev = []) :
    (∀ j, p.join_path_id = some j → j ≠ "NONE" →
       ∃ jp ∈ ev.join_paths, jp.join_path_id = j ∧
         PlanValidator.collect_tables p ev ⊆ jp.tables.toFinset) ∧
    (p.join_path_id = some "NONE" →
       (PlanValidator.collect_tables p ev).card ≤ 1) := by
  obtain ⟨h0, hsem⟩ := validate_nil_inv p ev h
  simp only [PlanValidator.semantic_errors, List.append_eq_nil] at hsem
  obtain ⟨⟨⟨⟨⟨⟨⟨hm, hd⟩, hf⟩, hjoin⟩, htr⟩, htg⟩, htf⟩, htmpl⟩ := hsem
  simp only [PlanValidator.join_errors] at hjoin
  split at hjoin
  · simp at hjoin
  next hcond =>
  constructor
  · intro j hjid hjne
    have hcont : (ev.join_paths.map (fun jp => jp.join_path_id)).contains j = true := by
      rw [hjid] at hcond
      simpa [hjne] using hcond
    have hmem : j ∈ ev.join_paths.map (fun jp => jp.join_path_id) := by
      simpa using hcont
    have hex : ∃ jp ∈ ev.join_paths, (fun jp => jp.join_path_id == j) jp = true := by
      obtain ⟨jp, hjp, hid⟩ := List.mem_map.mp hmem
      exact ⟨jp, hjp, by simp [hid]⟩
    obtain ⟨jp0, hfind⟩ :=
      Option.isSome_iff_exists.mp (List.find?_isSome.mpr hex)
    have hjp0_mem : jp0 ∈ ev.join_paths := List.mem_of_find?_eq_some hfind
    have hjp0_id : jp0.join_path_id = j := by
      have := List.find?_some hfind
      simpa using this
    refine ⟨jp0, hjp0_mem, hjp0_id, ?_⟩
    simp only [PlanValidator.check_join_reachability] at hjoin
    by_cases hre : PlanValidator.collect_tables p ev = ∅
    · simp [hre]
    · rw [if_neg hre, hjid] at hjoin
      rw [if_neg (by simp [hjne])] at hjoin
      simp only [hfind] at hjoin
      by_cases hsub :
          PlanValidator.collect_tables p ev ⊆ jp0.tables.toFinset
      · exact hsub
      · rw [if_pos hsub] at hjoin
        simp at hjoin
  · intro hnone
    simp only [PlanValidator.check_join_reachability] at hjoin
    by_cases hre : PlanValidator.collect_tables p ev = ∅
    · simp [hre]
    · rw [if_neg hre, if_pos hnone] at hjoin
      by_cases hcard : 1 < (PlanValidator.collect_tables p ev).card
      · rw [if_pos hcard] at hjoin
        simp at hjoin
      · omega

/-- Witness for C5 at `c5_pm` / `c5_ev` (the join path `jp1` covers the two
referenced tables). -/
theorem C5_join_reachability_witness :
    PlanValidator.validate c5_pm c5_ev = [] ∧
    ∃ jp ∈ c5_ev.join_paths, jp.join_path_id = "jp1" ∧
      PlanValidator.collect_tables c5_pm c5_ev ⊆ jp.tables.toFinset :=
  ⟨by decide,
   (C5_join_reachability c5_pm c5_ev (by decide)).1 "jp1" rfl (by decide)⟩

/-- C6: validation is pure — rerunning the validator on the state it leaves
behind returns the identical error sequence, and the plan map and evidence
bundle come back unchanged.  The source performs no writes to either
input, so the state-passing translation returns them untouched and the
property holds definitionally. -/
theorem C6_idempotent_validation (p : PlanMap) (ev : EvidenceBundle) :
    (PlanValidator.validate_run p ev).1 =
      (PlanValidator.validate_run (PlanValidator.validate_run p ev).2.1
        (PlanValidator.validate_run p ev).2.2).1 ∧
    (PlanValidator.validate_run p ev).2.1 = p ∧
    (PlanValidator.validate_run p ev).2.2 = ev :=
  ⟨rfl, rfl, rfl⟩

/-- C7 counterexample: `validate` returns early on structural errors
(`if errors: return errors`), so a plan that both violates the structural
schema (`version = "2.0"`) and carries a `metric_id` absent from the
evidence yields only the `schema` errors in one call — no
`metric_not_found` record, contradicting the claim. -/
theorem C7_schema_shortcircuit_counterexample :
    schema_errors c7_pm ≠ [] ∧
    (c7_pm.metric_id = some "m_missing" ∧
     "m_missing" ∉ c5_ev.metric_candidates.map (fun m => m.metric_id)) ∧
    PlanValidator.validate c7_pm c5_ev = schema_errors c7_pm ∧
    "metric_not_found" ∉ (PlanValidator.validate c7_pm c5_ev).map (fun e => e.code) := by
  refine ⟨by decide, ⟨by decide, by decide⟩, by decide, by decide⟩

/-- The `metric_not_found` chunk is either empty or the single record with
that code. -/
theorem metric_errors_shape (p : PlanMap) (ev : EvidenceBundle)
    (h : PlanValidator.metric_errors p ev ≠ []) :
    ∃ e, PlanValidator.metric_errors p ev = [e] ∧ e.code = "metric_not_found" := by
  simp only [PlanValidator.metric_errors] at h ⊢
  split at h
  · exact absurd rfl h
  next hknown =>
    rw [if_neg hknown]
    exact ⟨_, rfl, rfl⟩

/-- C7 amended: when the structural (Draft-7) check fails, the single call
returns exactly the structural errors; otherwise the call accumulates and
returns every semantic error chunk in one list (metric, dimensions,
filters, join, time range, time grain, time field, template rules, in
source order), and in particular an unknown `metric_id` contributes a
`metric_not_found` record to that one list. -/
theorem C7_errors_per_pass_amended (p : PlanMap) (ev : EvidenceBundle) :
    (schema_errors p ≠ [] → PlanValidator.validate p ev = schema_errors p) ∧
    (schema_errors p = [] →
      PlanValidator.validate p ev =
        PlanValidator.metric_errors p ev ++ PlanValidator.dimension_errors p ev ++
        PlanValidator.filter_errors p ev ++ PlanValidator.join_errors p ev ++
        PlanValidator.time_range_errors p ++ PlanValidator.time_grain_errors p ++
        PlanValidator.time_field_errors ev ++ PlanValidator.template_errors p ev ∧
      (PlanValidator.metric_errors p ev ≠ [] →
        "metric_not_found" ∈ (PlanValidator.validate p ev).map (fun e => e.code))) := by
  constructor
  · intro hne
    unfold PlanValidator.validate
    rw [if_pos (by simpa using hne)]
  · intro h0
    have hval : PlanValidator.validate p ev = PlanValidator.semantic_errors p ev := by
      unfold PlanValidator.validate
      rw [if_neg (by simp [h0])]
    refine ⟨by simpa [PlanValidator.semantic_errors] using hval, ?_⟩
    intro hmet
    obtain ⟨e, he, hec⟩ := metric_errors_shape p ev hmet
    rw [hval]
    unfold PlanValidator.semantic_errors
    rw [he]
    simp [hec]

/-- Witness for C7 amended at concrete inputs: the short-circuit branch at
`c7_pm` and the accumulate branch at the structurally valid `c7_pm2` whose
metric is unknown. -/
theorem C7_errors_per_pass_amended_witness :
    PlanValidator.validate c7_pm c5_ev = schema_errors c7_pm ∧
    "metric_not_found" ∈ (PlanValidator.validate c7_pm2 c5_ev).map (fun e => e.code) :=
  ⟨(C7_errors_per_pass_amended c7_pm c5_ev).1 (by decide),
   ((C7_errors_per_pass_amended c7_pm2 c5_ev).2 (by decide)).2 (by decide)⟩

/-! Error-code characterizations of the validator chunks, used to show
`metric_not_found` can only come from the metric check. -/

theorem schema_errors_code (p : PlanMap) :
    ∀ e ∈ schema_errors p, e.code = "schema" := by
  intro e he
  simp only [schema_errors, List.mem_filterMap] at he
  obtain ⟨c, _, hc⟩ := he
  split at hc
  · simp at hc
  · rw [← Option.some.inj hc]
    rfl

theorem dim_errors_go_code (sf : List String) :
    ∀ (dims : List DimEntry) (idx : Nat) (e : ValidationError),
      e ∈ PlanValidator.dim_errors_go sf idx dims →
      e.code = "dimension_field_invalid" := by
  intro dims
  induction dims with
  | nil => intro idx e he; simp [PlanValidator.dim_errors_go] at he
  | cons d rest ih =>
    intro idx e he
    simp only [PlanValidator.dim_errors_go, List.mem_append] at he
    rcases he with h | h
    · split at h
      · simp at h
      · simp at h
        rw [h]
    · exact ih (idx + 1) e h

theorem fil_errors_go_code (sf : List String) :
    ∀ (fils : List FilterEntry) (idx : Nat) (e : ValidationError),
      e ∈ PlanValidator.fil_errors_go sf idx fils →
      e.code = "filter_field_invalid" := by
  intro fils
  induction fils with
  | nil => intro idx e he; simp [PlanValidator.fil_errors_go] at he
  | cons f rest ih =>
    intro idx e he
    simp only [PlanValidator.fil_errors_go, List.mem_append] at he
    rcases he with h | h
    · split at h
      · simp at h
      · simp at h
        rw [h]
    · exact ih (idx + 1) e h

theorem check_join_reachability_code (p : PlanMap) (ev : EvidenceBundle) :
    ∀ e ∈ PlanValidator.check_join_reachability p ev,
      e.code = "join_required" ∨ e.code = "join_path_unreachable" := by
  intro e he
  simp only [PlanValidator.check_join_reachability] at he
  split at he
  · simp at he
  split at he
  · split at he
    · simp at he
      rw [he]
      exact Or.inl rfl
    · simp at he
  · split at he
    · split at he
      · simp at he
        rw [he]
        exact Or.inr rfl
      · simp at he
    · simp at he

theorem join_errors_code (p : PlanMap) (ev : EvidenceBundle) :
    ∀ e ∈ PlanValidator.join_errors p ev,
      e.code = "join_path_not_found" ∨ e.code = "join_required" ∨
      e.code = "join_path_unreachable" := by
  intro e he
  simp only [PlanValidator.join_errors] at he
  split at he
  · simp at he
    rw [he]
    exact Or.inl rfl
  · exact Or.inr (check_join_reachability_code p ev e he)

theorem time_range_errors_code (p : PlanMap) :
    ∀ e ∈ PlanValidator.time_range_errors p,
      e.code = "time_range_invalid" ∨ e.code = "time_range_missing" := by
  intro e he
  simp only [PlanValidator.time_range_errors] at he
  split at he
  · split at he
    · split at he
      · simp at he
        rw [he]
        exact Or.inl rfl
      · simp at he
    · simp at he
      rw [he]
      exact Or.inl rfl
  · simp at he
    rw [he]
    exact Or.inr rfl

theorem time_grain_errors_code (p : PlanMap) :
    ∀ e ∈ PlanValidator.time_grain_errors p, e.code = "time_grain_required" := by
  intro e he
  simp only [PlanValidator.time_grain_errors] at he
  split at he
  · simp at he
    rw [he]
  · simp at he

theorem time_field_errors_code (ev : EvidenceBundle) :
    ∀ e ∈ PlanValidator.time_field_errors ev, e.code = "time_field_missing" := by
  intro e he
  simp only [PlanValidator.time_field_errors] at he
  split at he
  · simp at he
  · simp at he
    rw [he]

theorem clause_errors_code (p : PlanMap) (rule : TemplateRule) (clause : String) :
    ∀ e ∈ PlanValidator.clause_errors p rule clause,
      e.code = "required_clause_missing" := by
  intro e he
  simp only [PlanValidator.clause_errors, List.mem_append] at he
  rcases he with ((((h | h) | h) | h) | h) <;>
    · split at h
      · simp at h
        rw [h]
      · simp at h

theorem rule_errors_code (p : PlanMap) (ev : EvidenceBundle) (rule : TemplateRule) :
    ∀ e ∈ PlanValidator.rule_errors p ev rule,
      e.code = "function_not_allowed" ∨ e.code = "agg_not_allowed" ∨
      e.code = "required_clause_missing" := by
  intro e he
  simp only [PlanValidator.rule_errors] at he
  split at he
  · simp at he
  · simp only [List.mem_append] at he
    rcases he with (h | h) | h
    · split at h
      · simp at h
        rw [h]
        exact Or.inl rfl
      · simp at h
    · split at h
      · simp at h
        rw [h]
        exact Or.inr (Or.inl rfl)
      · simp at h
    · simp only [List.mem_flatten, List.mem_map] at h
      obtain ⟨l, ⟨clause, _, hl⟩, hel⟩ := h
      exact Or.inr (Or.inr (clause_errors_code p rule clause e (hl ▸ hel)))

theorem template_errors_code (p : PlanMap) (ev : EvidenceBundle) :
    ∀ e ∈ PlanValidator.template_errors p ev,
      e.code = "function_not_allowed" ∨ e.code = "agg_not_allowed" ∨
      e.code = "required_clause_missing" := by
  intro e he
  simp only [PlanValidator.template_errors, List.mem_flatten, List.mem_map] at he
  obtain ⟨l, ⟨rule, _, hl⟩, hel⟩ := he
  exact rule_errors_code p ev rule e (hl ▸ hel)

theorem score_metric_nonneg (q : String) (m : MetricDef) :
    0 ≤ Planner.score_metric q m := by
  simp only [Planner.score_metric]
  split <;> split <;> split <;> omega

theorem foldl_auto_fix_mem (q : String) :
    ∀ (metrics : List MetricDef) (acc : Int × String),
      (metrics.foldl (Planner.auto_fix_step q) acc).2 = acc.2 ∨
      (metrics.foldl (Planner.auto_fix_step q) acc).2 ∈
        metrics.map (fun m => m.metric_id) := by
  intro metrics
  induction metrics with
  | nil => intro acc; exact Or.inl rfl
  | cons m rest ih =>
    intro acc
    rw [List.foldl_cons]
    rcases ih (Planner.auto_fix_step q acc m) with h | h
    · rw [h]
      simp only [Planner.auto_fix_step]
      split
      · exact Or.inr (by simp)
      · exact Or.inl rfl
    · exact Or.inr (by simp [h])

/-- `_auto_fix_metric_id` on a non-empty list returns the id of some member
(the first metric always beats the initial `best_score = -1`). -/
theorem auto_fix_mem (question : String) (metrics : List MetricDef)
    (h : metrics ≠ []) :
    Planner.auto_fix_metric_id question metrics ∈
      metrics.map (fun m => m.metric_id) := by
  obtain ⟨m, rest, rfl⟩ := List.exists_cons_of_ne_nil h
  simp only [Planner.auto_fix_metric_id]
  rw [List.foldl_cons]
  have hstep : Planner.auto_fix_step (pyLower question) (-1, "") m =
      (Planner.score_metric (pyLower question) m, m.metric_id) := by
    simp only [Planner.auto_fix_step]
    rw [if_pos]
    have := score_metric_nonneg (pyLower question) m
    omega
  rw [hstep]
  rcases foldl_auto_fix_mem (pyLower question) rest
      (Planner.score_metric (pyLower question) m, m.metric_id) with h2 | h2
  · rw [h2]
    simp
  · simp [h2]

/-- C10 counterexample: for a non-empty metric list whose single member has
`metric_id = ""`, `_auto_fix_metric_id` returns the empty string. -/
theorem C10_auto_fix_counterexample :
    ([c10_md_empty] : List MetricDef) ≠ [] ∧
    Planner.auto_fix_metric_id "show cost" [c10_md_empty] = "" := by
  refine ⟨by decide, by decide⟩

/-- C10 amended: for every non-empty metric list the auto-fix returns the
`metric_id` of some member; hence when every member carries a non-empty id
it never returns the empty string, and then the recovery step — candidates
replaced by the full MetricKB, `metric_id` overwritten, revalidate — cannot
leave a `metric_not_found` error. -/
theorem C10_metric_auto_fix_amended :
    (∀ (q : String) (metrics : List MetricDef), metrics ≠ [] →
       Planner.auto_fix_metric_id q metrics ∈ metrics.map (fun m => m.metric_id)) ∧
    (∀ (q : String) (metrics : List MetricDef), metrics ≠ [] →
       (∀ m ∈ metrics, m.metric_id ≠ "") →
       Planner.auto_fix_metric_id q metrics ≠ "") ∧
    (∀ (q : String) (p : PlanMap) (kb : List MetricDef) (ev : EvidenceBundle),
       kb ≠ [] → (∀ m ∈ kb, m.metric_id ≠ "") →
       "metric_not_found" ∉
         ((Planner.metric_fix_step q p kb ev).2.2).map (fun e => e.code)) := by
  have hmem := auto_fix_mem
  have hne : ∀ (q : String) (metrics : List MetricDef), metrics ≠ [] →
      (∀ m ∈ metrics, m.metric_id ≠ "") →
      Planner.auto_fix_metric_id q metrics ≠ "" := by
    intro q metrics h hids
    obtain ⟨m, hm, hid⟩ := List.mem_map.mp (hmem q metrics h)
    rw [← hid]
    exact hids m hm
  refine ⟨hmem, hne, ?_⟩
  intro q p kb ev hkb hids hcontra
  have hfix_mem := hmem q kb hkb
  have hfix_ne := hne q kb hkb hids
  simp only [Planner.metric_fix_step, if_pos hfix_ne] at hcontra
  set p' : PlanMap := { p with metric_id := some (Planner.auto_fix_metric_id q kb) }
    with hp'
  set ev' : EvidenceBundle :=
    { metric_candidates := kb, schema_candidates := ev.schema_candidates,
      join_paths := ev.join_paths, template_rules := ev.template_rules } with hev'
  obtain ⟨e, he, hec⟩ := List.mem_map.mp hcontra
  by_cases h0 : schema_errors p' = []
  · have hval : PlanValidator.validate p' ev' = PlanValidator.semantic_errors p' ev' := by
      unfold PlanValidator.validate
      rw [if_neg (by simp [h0])]
    rw [hval] at he
    have hmet : PlanValidator.metric_errors p' ev' = [] := by
      simp only [PlanValidator.metric_errors]
      rw [if_pos]
      show (match p'.metric_id with
            | some mid => (ev'.metric_candidates.map (fun m => m.metric_id)).contains mid
            | none => false) = true
      show ((kb.map (fun m => m.metric_id)).contains (Planner.auto_fix_metric_id q kb)) = true
      simpa using hfix_mem
    simp only [PlanValidator.semantic_errors, hmet, List.nil_append,
               List.mem_append] at he
    rcases he with ((((((h | h) | h) | h) | h) | h) | h)
    · exact absurd hec (by rw [dim_errors_go_code _ _ _ _ h]; decide)
    · exact absurd hec (by rw [fil_errors_go_code _ _ _ _ h]; decide)
    · rcases join_errors_code p' ev' e h with hc | hc | hc <;>
        · rw [hc] at hec
          exact absurd hec (by decide)
    · rcases time_range_errors_code p' e h with hc | hc <;>
        · rw [hc] at hec
          exact absurd hec (by decide)
    · rw [time_grain_errors_code p' e h] at hec
      exact absurd hec (by decide)
    · rw [time_field_errors_code ev' e h] at hec
      exact absurd hec (by decide)
    · rcases template_errors_code p' ev' e h with hc | hc | hc <;>
        · rw [hc] at hec
          exact absurd hec (by decide)
  · have hval : PlanValidator.validate p' ev' = schema_errors p' := by
      unfold PlanValidator.validate
      rw [if_pos (by simpa using h0)]
    rw [hval] at he
    rw [schema_errors_code p' e he] at hec
    exact absurd hec (by decide)

/-! Supporting lemmas for the evidence-containment theorem (C1). -/

theorem find_metric_of_get (mid : String) (ev : EvidenceBundle) (md : MetricDef)
    (h : get_metric_def mid ev = .ok md) :
    ev.metric_candidates.find? (fun m => m.metric_id == mid) = some md := by
  unfold get_metric_def at h
  split at h
  next m heq => rw [heq]; exact congrArg some (Except.ok.inj h)
  next => simp at h

theorem metric_fields_allowed (p : PlanDSL) (ev : EvidenceBundle) (md : MetricDef)
    (hget : get_metric_def p.metric_id ev = .ok md) :
    ∀ f ∈ md.required_fields, hasDot f = true → f ∈ build_allowed_fields p ev := by
  intro f hf hdot
  have hfind := find_metric_of_get _ _ _ hget
  simp only [build_allowed_fields, hfind]
  simp [List.mem_append, List.mem_filter, hf, hdot]

theorem splitDot_hasDot (s t f : String) (h : splitDot s = some (t, f)) :
    hasDot s = true := by
  unfold splitDot at h
  cases hs : splitDotChars s.data with
  | none => rw [hs] at h; exact absurd h (by simp)
  | some p =>
    obtain ⟨l, r⟩ := p
    have := splitDotChars_reconstruct s.data l r hs
    unfold hasDot
    rw [← this]
    simp

theorem pick_scan_mem (l : List SchemaEntity) (t f : String)
    (h : pick_time_field_scan l = some (t, f)) :
    ∃ s ∈ l, s.table = t ∧ s.field = f := by
  induction l with
  | nil => simp [pick_time_field_scan] at h
  | cons c rest ih =>
    simp only [pick_time_field_scan] at h
    split at h
    · obtain ⟨h1, h2⟩ := Prod.mk.injEq .. ▸ Option.some.inj h
      exact ⟨c, by simp, h1, h2⟩
    split at h
    · obtain ⟨h1, h2⟩ := Prod.mk.injEq .. ▸ Option.some.inj h
      exact ⟨c, by simp, h1, h2⟩
    · obtain ⟨s, hs, hp⟩ := ih h
      exact ⟨s, by simp [hs], hp⟩

theorem fallback_mem (fs : List String) (t f : String)
    (h : pick_time_field_fallback fs = .ok (t, f)) :
    ∃ g ∈ fs, splitDot g = some (t, f) := by
  induction fs with
  | nil => simp [pick_time_field_fallback] at h
  | cons g rest ih =>
    simp only [pick_time_field_fallback] at h
    split at h
    · split at h
      next a b heq =>
        obtain ⟨h1, h2⟩ := Prod.mk.injEq .. ▸ Except.ok.inj h
        exact ⟨g, by simp, by rw [heq, h1, h2]⟩
      next => simp at h
    · obtain ⟨g', hg', hp⟩ := ih h
      exact ⟨g', by simp [hg'], hp⟩

theorem time_field_allowed (p : PlanDSL) (ev : EvidenceBundle) (md : MetricDef)
    (tt tf : String) (hget : get_metric_def p.metric_id ev = .ok md)
    (h : pick_time_field ev md = .ok (tt, tf)) :
    (tt ++ "." ++ tf) ∈ build_allowed_fields p ev := by
  unfold pick_time_field at h
  cases hscan : pick_time_field_scan ev.schema_candidates with
  | some pr =>
    rw [hscan] at h
    obtain ⟨t0, f0⟩ := pr
    obtain ⟨h1, h2⟩ := Prod.mk.injEq .. ▸ Except.ok.inj h
    subst h1 h2
    obtain ⟨s, hs, hst, hsf⟩ := pick_scan_mem _ _ _ hscan
    simp only [build_allowed_fields]
    simp only [List.append_assoc, List.mem_append, List.mem_map]
    exact Or.inl ⟨s, hs, by rw [hst, hsf]⟩
  | none =>
    rw [hscan] at h
    obtain ⟨g, hg, hsp⟩ := fallback_mem _ _ _ h
    have := splitDot_reconstruct g tt tf hsp
    rw [this]
    exact metric_fields_allowed p ev md hget g hg (splitDot_hasDot g tt tf hsp)

theorem bucket_cols (t f g : String) (e : SqlExpr)
    (h : time_bucket_expr t f g = .ok e) : e.collectCols = [(t, f)] := by
  simp only [time_bucket_expr] at h
  split at h
  · obtain rfl := Except.ok.inj h; rfl
  split at h
  · obtain rfl := Except.ok.inj h; rfl
  split at h
  · obtain rfl := Except.ok.inj h; rfl
  split at h
  · obtain rfl := Except.ok.inj h; rfl
  split at h
  · obtain rfl := Except.ok.inj h; rfl
  · simp at h

theorem metric_expr_cols (p : PlanDSL) (ev : EvidenceBundle) (md : MetricDef)
    (e : SqlExpr) (hget : get_metric_def p.metric_id ev = .ok md)
    (h : metric_expr md = .ok e) :
    ∀ tf ∈ e.collectCols, (tf.1 ++ "." ++ tf.2) ∈ build_allowed_fields p ev := by
  intro tf htf
  simp only [metric_expr] at h
  split at h
  next hrf => simp at h
  next f hrf =>
    split at h
    next t x hsp =>
      obtain rfl := Except.ok.inj h
      simp only [SqlExpr.collectCols, List.mem_singleton] at htf
      subst htf
      rw [show ((t, x).1 ++ "." ++ (t, x).2) = f from splitDot_reconstruct f t x hsp]
      exact metric_fields_allowed p ev md hget f (by simp [hrf])
        (splitDot_hasDot f t x hsp)
    next => simp at h
  next fa fb rest hrf =>
    split at h
    next ta xa tb xb hsa hsb =>
      obtain rfl := Except.ok.inj h
      simp only [SqlExpr.collectCols, List.append_nil, List.mem_append,
                 List.mem_singleton] at htf
      rcases htf with rfl | rfl
      · rw [show ((ta, xa).1 ++ "." ++ (ta, xa).2) = fa from
            splitDot_reconstruct fa ta xa hsa]
        exact metric_fields_allowed p ev md hget fa (by simp [hrf])
          (splitDot_hasDot fa ta xa hsa)
      · rw [show ((tb, xb).1 ++ "." ++ (tb, xb).2) = fb from
            splitDot_reconstruct fb tb xb hsb]
        exact metric_fields_allowed p ev md hget fb (by simp [hrf])
          (splitDot_hasDot fb tb xb hsb)
    next => simp at h

theorem check_dimensions_ok_mem :
    ∀ (dims : List Dimension) (allowed : List String) (cols : List SqlExpr),
      check_dimensions dims allowed = .ok cols →
      ∀ e ∈ cols, ∃ d ∈ dims, e = SqlExpr.col (some d.table) d.field ∧
        (d.table ++ "." ++ d.field) ∈ allowed := by
  intro dims
  induction dims with
  | nil =>
    intro allowed cols h e he
    simp only [check_dimensions] at h
    obtain rfl := Except.ok.inj h
    simp at he
  | cons d rest ih =>
    intro allowed cols h e he
    simp only [check_dimensions] at h
    split at h
    next hcont =>
      split at h
      next cols' hrec =>
        obtain rfl := Except.ok.inj h
        rcases List.mem_cons.mp he with rfl | htail
        · exact ⟨d, by simp, rfl, by simpa using hcont⟩
        · obtain ⟨d', hd', hp⟩ := ih allowed cols' hrec e htail
          exact ⟨d', by simp [hd'], hp⟩
      next => simp at h
    next => simp at h

theorem check_dimensions_bad :
    ∀ (dims : List Dimension) (allowed : List String),
      (∃ d ∈ dims, (d.table ++ "." ++ d.field) ∉ allowed) →
      ∀ cols, check_dimensions dims allowed ≠ .ok cols := by
  intro dims
  induction dims with
  | nil => intro allowed h; simp at h
  | cons d rest ih =>
    intro allowed hbad cols h
    simp only [check_dimensions] at h
    obtain ⟨d0, hd0, hna⟩ := hbad
    rcases List.mem_cons.mp hd0 with rfl | htail
    · rw [if_neg (by simpa using hna)] at h
      simp at h
    · split at h
      · split at h
        next cols' hrec => exact ih allowed ⟨d0, htail, hna⟩ cols' hrec
        next => simp at h
      · simp at h

theorem filter_expr_cols (fil : Filter) (e : SqlExpr)
    (h : filter_expr fil = .ok e) : e.collectCols = [(fil.table, fil.field)] := by
  simp only [filter_expr] at h
  split at h
  · obtain rfl := Except.ok.inj h; rfl
  split at h
  · obtain rfl := Except.ok.inj h; rfl
  split at h
  · obtain rfl := Except.ok.inj h; rfl
  split at h
  · obtain rfl := Except.ok.inj h; rfl
  split at h
  · obtain rfl := Except.ok.inj h; rfl
  split at h
  · obtain rfl := Except.ok.inj h; rfl
  split at h
  · obtain rfl := Except.ok.inj h; rfl
  split at h
  · split at h
    · obtain rfl := Except.ok.inj h; rfl
    · simp at h
  split at h
  · split at h
    · obtain rfl := Except.ok.inj h; rfl
    · simp at h
  · simp at h

theorem apply_filters_cols :
    ∀ (fs : List Filter) (allowed : List String) (acc : Option SqlExpr)
      (w : Option SqlExpr), apply_filters fs allowed acc = .ok w →
      ∀ tf ∈ opt_cols w, tf ∈ opt_cols acc ∨ (tf.1 ++ "." ++ tf.2) ∈ allowed := by
  intro fs
  induction fs with
  | nil =>
    intro allowed acc w h tf htf
    simp only [apply_filters] at h
    obtain rfl := Except.ok.inj h
    exact Or.inl htf
  | cons fil rest ih =>
    intro allowed acc w h tf htf
    simp only [apply_filters] at h
    split at h
    next hcont =>
      split at h
      next fe hfe =>
        rcases ih allowed (some (and_join acc fe)) w h tf htf with hin | hin
        · have hfc := filter_expr_cols fil fe hfe
          cases acc with
          | none =>
            simp only [opt_cols, and_join, hfc, List.mem_singleton] at hin
            subst hin
            exact Or.inr (by simpa using hcont)
          | some l =>
            simp only [opt_cols, and_join, SqlExpr.collectCols, hfc,
                       List.mem_append, List.mem_singleton] at hin
            rcases hin with hin | hin
            · exact Or.inl (by simpa [opt_cols] using hin)
            · subst hin
              exact Or.inr (by simpa using hcont)
        · exact Or.inr hin
      next => simp at h
    next => simp at h

theorem apply_filters_bad :
    ∀ (fs : List Filter) (allowed : List String) (acc : Option SqlExpr),
      (∃ fl ∈ fs, (fl.table ++ "." ++ fl.field) ∉ allowed) →
      ∀ w, apply_filters fs allowed acc ≠ .ok w := by
  intro fs
  induction fs with
  | nil => intro allowed acc h; simp at h
  | cons fil rest ih =>
    intro allowed acc hbad w h
    simp only [apply_filters] at h
    obtain ⟨fl, hfl, hna⟩ := hbad
    rcases List.mem_cons.mp hfl with rfl | htail
    · rw [if_neg (by simpa using hna)] at h
      simp at h
    · split at h
      · split at h
        next fe hfe =>
          exact ih allowed (some (and_join acc fe)) ⟨fl, htail, hna⟩ w h
        next => simp at h
      · simp at h

theorem get_join_path_find (jpid : String) (ev : EvidenceBundle) (jp : JoinPath)
    (h : get_join_path jpid ev = some jp) :
    ev.join_paths.find? (fun j => j.join_path_id == jpid) = some jp := by
  unfold get_join_path at h
  split at h
  · simp at h
  · exact h

theorem join_edge_fields_allowed (p : PlanDSL) (ev : EvidenceBundle) (jp : JoinPath)
    (h : get_join_path p.join_path_id ev = some jp) :
    ∀ edge ∈ jp.edges,
      (edge.left_table ++ "." ++ edge.left_field) ∈ build_allowed_fields p ev ∧
      (edge.right_table ++ "." ++ edge.right_field) ∈ build_allowed_fields p ev := by
  intro edge he
  have hf := get_join_path_find _ _ _ h
  simp only [build_allowed_fields, hf]
  constructor <;>
  · simp only [List.append_assoc, List.mem_append, List.mem_flatten, List.mem_map]
    refine Or.inr (Or.inr ⟨_, ⟨edge, he, rfl⟩, by simp⟩)

theorem order_expr_cols (p : PlanDSL) (allowed : List String) (srt : SortSpec)
    (e : SqlExpr) (b : Bool) (h : order_expr p allowed srt = .ok (some (e, b))) :
    ∀ tf ∈ e.collectCols, (tf.1 ++ "." ++ tf.2) ∈ allowed := by
  intro tf htf
  simp only [order_expr] at h
  split at h
  · obtain h' := Except.ok.inj h
    obtain ⟨h1, _⟩ := Prod.mk.injEq .. ▸ Option.some.inj h'
    rw [← h1] at htf
    simp [SqlExpr.collectCols] at htf
  split at h
  · split at h
    · simp at h
    · obtain h' := Except.ok.inj h
      obtain ⟨h1, _⟩ := Prod.mk.injEq .. ▸ Option.some.inj h'
      rw [← h1] at htf
      simp [SqlExpr.collectCols] at htf
  split at h
  · split at h
    next hcont =>
      split at h
      next t x hsp =>
        obtain h' := Except.ok.inj h
        obtain ⟨h1, _⟩ := Prod.mk.injEq .. ▸ Option.some.inj h'
        rw [← h1] at htf
        simp only [SqlExpr.collectCols, List.mem_singleton] at htf
        subst htf
        rw [show ((t, x).1 ++ "." ++ (t, x).2) = srt.sort_by from
            splitDot_reconstruct _ t x hsp]
        simpa using hcont
      next => simp at h
    next => simp at h
  split at h
  · obtain h' := Except.ok.inj h
    obtain ⟨h1, _⟩ := Prod.mk.injEq .. ▸ Option.some.inj h'
    rw [← h1] at htf
    simp [SqlExpr.collectCols] at htf
  · simp at h

theorem order_expr_bad (p : PlanDSL) (allowed : List String) (srt : SortSpec)
    (hm : srt.sort_by ≠ "metric") (hm2 : srt.sort_by ≠ p.metric_id)
    (ht : srt.sort_by ≠ "time") (ht2 : srt.sort_by ≠ "time_bucket")
    (hd : hasDot srt.sort_by = true) (hna : srt.sort_by ∉ allowed) :
    ∀ r, order_expr p allowed srt ≠ .ok r := by
  intro r h
  simp only [order_expr] at h
  rw [if_neg (by simp [hm, hm2])] at h
  rw [if_neg (by simp [ht, ht2])] at h
  rw [if_pos hd] at h
  rw [if_neg (by simpa using hna)] at h
  simp at h

/-- C1: every `table.field` column reference placed in a successfully
compiled query — time bucket, dimensions, metric SUM arguments, join ON
fields, time-range/filter columns, qualified sort column — lies in the
allow-list `_build_allowed_fields` builds from evidence schema candidates,
the plan's metric's required fields and the chosen join path's edges; and
compilation fails for any dimension, filter, or qualified sort field
outside that allow-list. -/
theorem C1_evidence_containment :
    (∀ (p : PlanDSL) (ev : EvidenceBundle) (q : CompiledQuery),
       compile p ev = .ok q →
       ∀ tf ∈ emitted_columns q, (tf.1 ++ "." ++ tf.2) ∈ build_allowed_fields p ev) ∧
    (∀ (p : PlanDSL) (ev : EvidenceBundle),
       ((∃ d ∈ p.dimensions, (d.table ++ "." ++ d.field) ∉ build_allowed_fields p ev) ∨
        (∃ fl ∈ p.filters, (fl.table ++ "." ++ fl.field) ∉ build_allowed_fields p ev) ∨
        (∃ srt, p.sort = some srt ∧ srt.sort_by ≠ "metric" ∧ srt.sort_by ≠ p.metric_id ∧
           srt.sort_by ≠ "time" ∧ srt.sort_by ≠ "time_bucket" ∧
           hasDot srt.sort_by = true ∧ srt.sort_by ∉ build_allowed_fields p ev)) →
       ∀ q, compile p ev ≠ .ok q) := by
  constructor
  · intro p ev q h tf htf
    obtain ⟨md, tt, tfl, bucketOpt, dim_cols, mexpr, where_expr, order_by,
            hget, hpt, hbucket, hdims, hmexpr, hfilters, horder, hq⟩ :=
      compile_ok_inv p ev q h
    subst hq
    simp only [emitted_columns, List.mem_append] at htf
    rcases htf with ((((hsel | hjoin) | hwhere) | hgroup) | hord)
    · -- select list
      simp only [List.mem_flatten, List.mem_map] at hsel
      obtain ⟨l, ⟨pair, hpair, hl⟩, htfl⟩ := hsel
      subst hl
      simp only [List.mem_append] at hpair
      rcases hpair with (hp0 | hpdim) | hpm
      · -- time bucket
        rcases hbucket with ⟨hint, b, hb, rfl⟩ | ⟨hint, rfl⟩
        · simp only [List.mem_singleton] at hp0
          subst hp0
          rw [bucket_cols tt tfl p.time_grain b hb] at htfl
          simp only [List.mem_singleton] at htfl
          subst htfl
          exact time_field_allowed p ev md tt tfl hget hpt
        · simp at hp0
      · -- dimension columns
        simp only [List.mem_map] at hpdim
        obtain ⟨c, hc, rfl⟩ := hpdim
        obtain ⟨d, _, rfl, hda⟩ := check_dimensions_ok_mem _ _ _ hdims c hc
        simp only [SqlExpr.collectCols, List.mem_singleton] at htfl
        subst htfl
        exact hda
      · -- metric expression
        simp only [List.mem_singleton] at hpm
        subst hpm
        exact metric_expr_cols p ev md mexpr hget hmexpr tf htfl
    · -- join ON fields
      simp only [List.mem_flatten, List.mem_map] at hjoin
      obtain ⟨l, ⟨j, hj, hl⟩, htfl⟩ := hjoin
      subst hl
      cases hjp : get_join_path p.join_path_id ev with
      | none => rw [hjp] at hj; simp at hj
      | some jp =>
        rw [hjp] at hj
        simp only [List.mem_map] at hj
        obtain ⟨edge, hedge, rfl⟩ := hj
        obtain ⟨hleft, hright⟩ := join_edge_fields_allowed p ev jp hjp edge hedge
        simp only [SqlExpr.collectCols, List.mem_append, List.mem_singleton] at htfl
        rcases htfl with rfl | rfl
        · exact hleft
        · exact hright
    · -- where clause
      cases where_expr with
      | none => simp at hwhere
      | some w =>
        have hres := apply_filters_cols p.filters (build_allowed_fields p ev)
          (some (time_range_filter tt tfl p)) (some w) hfilters tf
          (by simpa [opt_cols] using hwhere)
        rcases hres with hin | hin
        · simp only [opt_cols, time_range_filter, SqlExpr.collectCols,
                     List.append_nil, List.mem_singleton] at hin
          subst hin
          exact time_field_allowed p ev md tt tfl hget hpt
        · exact hin
    · -- group by
      simp only [List.mem_flatten, List.mem_map] at hgroup
      obtain ⟨l, ⟨e, he, hl⟩, htfl⟩ := hgroup
      subst hl
      simp only [List.mem_append] at he
      rcases he with he0 | hedim
      · rcases hbucket with ⟨_, _, _, rfl⟩ | ⟨_, rfl⟩
        · simp only [List.mem_singleton] at he0
          subst he0
          simp [SqlExpr.collectCols] at htfl
        · simp at he0
      · obtain ⟨d, _, rfl, hda⟩ := check_dimensions_ok_mem _ _ _ hdims e hedim
        simp only [SqlExpr.collectCols, List.mem_singleton] at htfl
        subst htfl
        exact hda
    · -- order by
      cases order_by with
      | none => simp at hord
      | some eb =>
        obtain ⟨e, b⟩ := eb
        have htf2 : tf ∈ e.collectCols := by simpa using hord
        rcases horder with ⟨srt, hsort, hordx⟩ | ⟨hnone, hdef⟩
        · exact order_expr_cols p (build_allowed_fields p ev) srt e b hordx tf htf2
        · by_cases hint : p.intent = "trend"
          · rw [if_pos hint] at hdef
            obtain ⟨h1, _⟩ := Prod.mk.injEq .. ▸ Option.some.inj hdef
            rw [h1] at htf2
            simp [SqlExpr.collectCols] at htf2
          · rw [if_neg hint] at hdef
            simp at hdef
  · intro p ev hbad q h
    obtain ⟨md, tt, tfl, bucketOpt, dim_cols, mexpr, where_expr, order_by,
            hget, hpt, hbucket, hdims, hmexpr, hfilters, horder, hq⟩ :=
      compile_ok_inv p ev q h
    rcases hbad with hdim | hfil | ⟨srt, hsort, hm, hm2, ht, ht2, hd, hna⟩
    · exact check_dimensions_bad p.dimensions _ hdim dim_cols hdims
    · exact apply_filters_bad p.filters _ _ hfil where_expr hfilters
    · rcases horder with ⟨srt', hsort', hord⟩ | ⟨hnone, _⟩
      · rw [hsort] at hsort'
        obtain rfl := Option.some.inj hsort'
        exact order_expr_bad p _ srt hm hm2 ht ht2 hd hna order_by hord
      · rw [hsort] at hnone
        simp at hnone

/-- Witness for C1 at the S1-style evidence: the happy-path plan compiles
and every emitted column is allow-listed; the plan with the foreign
dimension field `feeder.bad_field` is rejected. -/
theorem C1_evidence_containment_witness :
    compile c1_p c1_ev = .ok c1_q ∧
    (∀ tf ∈ emitted_columns c1_q,
       (tf.1 ++ "." ++ tf.2) ∈ build_allowed_fields c1_p c1_ev) ∧
    (∀ q, compile c1_pbad c1_ev ≠ .ok q) :=
  ⟨by decide, C1_evidence_containment.1 c1_p c1_ev c1_q (by decide),
   C1_evidence_containment.2 c1_pbad c1_ev
     (Or.inl ⟨⟨"feeder", "bad_field"⟩, by decide, by decide⟩)⟩

/-- C8: when a plan survives validation but its serialized JSON matches an
SQL keyword, the fail-closed step raises `llm_output_not_safe` and the
engine's pipeline never enters the compile stage. -/
theorem C8_fail_closed_sql_leakage (p : PlanMap) (ev : EvidenceBundle)
    (toPlan : PlanMap → PlanDSL) (cev : EvidenceBundle)
    (hvalid : PlanValidator.validate p ev = [])
    (hkw : Planner.contains_sql_keywords (Planner.serialize_plan p) = true) :
    Planner.fail_closed p (PlanValidator.validate p ev) =
      .error Planner.PlanFailure.llm_output_not_safe ∧
    (Planner.run_plan_and_compile p (PlanValidator.validate p ev) toPlan cev).1 =
      .error Planner.PlanFailure.llm_output_not_safe ∧
    "compile" ∉ (Planner.run_plan_and_compile p (PlanValidator.validate p ev) toPlan cev).2 := by
  have h1 : Planner.fail_closed p (PlanValidator.validate p ev) =
      .error Planner.PlanFailure.llm_output_not_safe := by
    rw [hvalid]
    unfold Planner.fail_closed
    rw [if_neg (by simp), if_pos hkw]
  refine ⟨h1, ?_, ?_⟩
  · simp [Planner.run_plan_and_compile, h1]
  · simp [Planner.run_plan_and_compile, h1]

set_option maxRecDepth 10000 in
/-- Witness for C8 at a concrete validated plan whose clarification text
contains `select`. -/
theorem C8_fail_closed_sql_leakage_witness :
    PlanValidator.validate c8_pm c5_ev = [] ∧
    Planner.contains_sql_keywords (Planner.serialize_plan c8_pm) = true ∧
    (Planner.run_plan_and_compile c8_pm (PlanValidator.validate c8_pm c5_ev)
       (fun _ => c1_p) c1_ev).1 = .error Planner.PlanFailure.llm_output_not_safe ∧
    "compile" ∉ (Planner.run_plan_and_compile c8_pm (PlanValidator.validate c8_pm c5_ev)
       (fun _ => c1_p) c1_ev).2 :=
  ⟨by decide, by decide,
   (C8_fail_closed_sql_leakage c8_pm c5_ev (fun _ => c1_p) c1_ev
      (by decide) (by decide)).2.1,
   (C8_fail_closed_sql_leakage c8_pm c5_ev (fun _ => c1_p) c1_ev
      (by decide) (by decide)).2.2⟩

/-- Witness for C10 amended at a concrete MetricKB. -/
theorem C10_metric_auto_fix_amended_witness :
    Planner.auto_fix_metric_id "show load_rate" [c5_md] ∈ [c5_md].map (fun m => m.metric_id) ∧
    Planner.auto_fix_metric_id "show load_rate" [c5_md] ≠ "" ∧
    "metric_not_found" ∉
      ((Planner.metric_fix_step "show load_rate" c7_pm2 [c5_md] c5_ev).2.2).map
        (fun e => e.code) :=
  ⟨C10_metric_auto_fix_amended.1 "show load_rate" [c5_md] (by decide),
   C10_metric_auto_fix_amended.2.1 "show load_rate" [c5_md] (by decide) (by decide),
   C10_metric_auto_fix_amended.2.2 "show load_rate" c7_pm2 [c5_md] c5_ev
     (by decide) (by decide)⟩

/-! Supporting lemmas for the vector-index query contract (C9). -/

open VectorIndex in
theorem insertDesc_perm (x : VectorIndex.ScoredDoc) (l : List VectorIndex.ScoredDoc) :
    (VectorIndex.insertDesc x l).Perm (x :: l) := by
  induction l with
  | nil => simp [VectorIndex.insertDesc]
  | cons y ys ih =>
    simp only [VectorIndex.insertDesc]
    split
    · exact ((ih.cons y).trans (List.Perm.swap x y ys))
    · exact List.Perm.refl _

theorem py_sort_desc_perm (l : List VectorIndex.ScoredDoc) :
    (VectorIndex.py_sort_desc l).Perm l := by
  induction l with
  | nil => simp [VectorIndex.py_sort_desc]
  | cons x xs ih =>
    have : VectorIndex.py_sort_desc (x :: xs) =
        VectorIndex.insertDesc x (VectorIndex.py_sort_desc xs) := rfl
    rw [this]
    exact (insertDesc_perm x (VectorIndex.py_sort_desc xs)).trans (ih.cons x)

theorem insertDesc_pairwise (x : VectorIndex.ScoredDoc)
    (l : List VectorIndex.ScoredDoc) (hl : l.Pairwise VectorIndex.rank_order)
    (hidx : ∀ y ∈ l, x.idx < y.idx) :
    (VectorIndex.insertDesc x l).Pairwise VectorIndex.rank_order := by
  induction l with
  | nil => simp [VectorIndex.insertDesc]
  | cons y ys ih =>
    obtain ⟨hy, hys⟩ := List.pairwise_cons.mp hl
    simp only [VectorIndex.insertDesc]
    split
    next hxy =>
      refine List.pairwise_cons.mpr ⟨?_, ih hys (fun z hz => hidx z (by simp [hz]))⟩
      intro z hz
      have hz' := (insertDesc_perm x ys).mem_iff.mp hz
      rcases List.mem_cons.mp hz' with rfl | hzm
      · exact Or.inl hxy
      · exact hy z hzm
    next hxy =>
      have hyx : y.score_sq ≤ x.score_sq := le_of_not_lt hxy
      refine List.pairwise_cons.mpr ⟨?_, hl⟩
      intro z hz
      rcases List.mem_cons.mp hz with rfl | hzm
      · rcases lt_or_eq_of_le hyx with hlt | heq
        · exact Or.inl hlt
        · exact Or.inr ⟨heq.symm, hidx z (by simp)⟩
      · rcases hy z hzm with hlt | ⟨heq, _⟩
        · exact Or.inl (lt_of_lt_of_le hlt hyx)
        · rcases lt_or_eq_of_le hyx with hlt2 | heq2
          · exact Or.inl (heq ▸ hlt2)
          · exact Or.inr ⟨by rw [← heq2, heq], hidx z (by simp [hzm])⟩

theorem py_sort_desc_pairwise (l : List VectorIndex.ScoredDoc)
    (h : l.Pairwise (fun a b => a.idx < b.idx)) :
    (VectorIndex.py_sort_desc l).Pairwise VectorIndex.rank_order := by
  induction l with
  | nil => simp [VectorIndex.py_sort_desc]
  | cons x xs ih =>
    obtain ⟨hx, hxs⟩ := List.pairwise_cons.mp h
    have : VectorIndex.py_sort_desc (x :: xs) =
        VectorIndex.insertDesc x (VectorIndex.py_sort_desc xs) := rfl
    rw [this]
    refine insertDesc_pairwise x _ (ih hxs) ?_
    intro y hy
    exact hx y ((py_sort_desc_perm xs).mem_iff.mp hy)

theorem scored_candidates_idx_pairwise (store : List VectorIndex.Entry)
    (qt : Finset String) (filter : List (String × String)) :
    (VectorIndex.scored_candidates store qt filter).Pairwise
      (fun a b => a.idx < b.idx) := by
  have henum : store.enum.Pairwise (fun a b => a.1 < b.1) := by
    have h1 : List.Pairwise (· < ·) (store.enum.map Prod.fst) := by
      rw [List.enum_map_fst]
      exact List.pairwise_lt_range store.length
    exact (List.pairwise_map.mp h1)
  refine List.Pairwise.filterMap _ ?_ henum
  intro a b hab x hx y hy
  split at hx
  · obtain rfl := Option.some.inj hx
    split at hy
    · obtain rfl := Option.some.inj hy
      exact hab
    · simp at hy
  · simp at hx

theorem scored_candidates_props (store : List VectorIndex.Entry)
    (qt : Finset String) (filter : List (String × String)) :
    ∀ d ∈ VectorIndex.scored_candidates store qt filter,
      VectorIndex.matches_filter filter d.metadata = true ∧
      0 < d.inter ∧ d.qcard = qt.card := by
  intro d hd
  simp only [VectorIndex.scored_candidates, List.mem_filterMap] at hd
  obtain ⟨ie, _, hie⟩ := hd
  split at hie
  next hcond =>
    obtain rfl := Option.some.inj hie
    simp only [Bool.and_eq_true, decide_eq_true_eq] at hcond
    exact ⟨hcond.1, hcond.2, rfl⟩
  next => simp at hie

/-- C9: the vector-index `query(text, top_k, filter)` returns the take of
`top_k` from a ranking `W` of the scored candidates, where `W` is a
permutation of exactly the stored documents that match every filter
key/value pair and share a token with the query, ordered strictly by
descending cosine score with ties broken by insertion order; an empty
query token set returns the empty list, and the result never exceeds
`top_k` entries.  (The float score `inter/sqrt(|A|·|B|)` is nonnegative, so
its comparisons are represented exactly by the rational `score_sq`.) -/
theorem C9_vector_query_contract (store : List VectorIndex.Entry) (text : String)
    (top_k : ℕ) (filter : List (String × String)) :
    ((tokenize text).toFinset = ∅ →
       VectorIndex.query store text top_k filter = []) ∧
    (VectorIndex.query store text top_k filter).length ≤ top_k ∧
    ((tokenize text).toFinset ≠ ∅ →
       VectorIndex.query store text top_k filter =
         (VectorIndex.py_sort_desc
           (VectorIndex.scored_candidates store (tokenize text).toFinset filter)).take top_k ∧
       (VectorIndex.py_sort_desc
         (VectorIndex.scored_candidates store (tokenize text).toFinset filter)).Perm
           (VectorIndex.scored_candidates store (tokenize text).toFinset filter) ∧
       (VectorIndex.py_sort_desc
         (VectorIndex.scored_candidates store (tokenize text).toFinset filter)).Pairwise
           VectorIndex.rank_order) ∧
    (∀ d ∈ VectorIndex.query store text top_k filter,
       VectorIndex.matches_filter filter d.metadata = true ∧
       0 < d.inter ∧ d.qcard = (tokenize text).toFinset.card) := by
  refine ⟨?_, ?_, ?_, ?_⟩
  · intro h
    simp [VectorIndex.query, h]
  · by_cases h : (tokenize text).toFinset = ∅
    · simp [VectorIndex.query, h]
    · simp only [VectorIndex.query, if_neg h]
      exact List.length_take_le top_k _
  · intro h
    exact ⟨by simp only [VectorIndex.query, if_neg h], py_sort_desc_perm _,
           py_sort_desc_pairwise _ (scored_candidates_idx_pairwise store _ filter)⟩
  · intro d hd
    by_cases h : (tokenize text).toFinset = ∅
    · simp [VectorIndex.query, h] at hd
    · simp only [VectorIndex.query, if_neg h] at hd
      have hmem : d ∈ VectorIndex.py_sort_desc
          (VectorIndex.scored_candidates store (tokenize text).toFinset filter) :=
        List.mem_of_mem_take hd
      have hc := (py_sort_desc_perm _).mem_iff.mp hmem
      exact scored_candidates_props store _ filter d hc

/-- Witness for C9 at a concrete three-document store. -/
theorem C9_vector_query_contract_witness :
    (VectorIndex.query c9_store "" 5 [] = []) ∧
    (VectorIndex.query c9_store "feeder load" 1 []).length ≤ 1 ∧
    (∀ d ∈ VectorIndex.query c9_store "feeder load" 5 [("kind", "schema")],
       VectorIndex.matches_filter [("kind", "schema")] d.metadata = true ∧
       0 < d.inter ∧ d.qcard = (tokenize "feeder load").toFinset.card) :=
  ⟨(C9_vector_query_contract c9_store "" 5 []).1 (by decide),
   (C9_vector_query_contract c9_store "feeder load" 1 []).2.1,
   (C9_vector_query_contract c9_store "feeder load" 5 [("kind", "schema")]).2.2.2⟩

end Theorems

end Lhx
